import Mathlib

/-
Verification of the Morpho V2 vault indexer's state-reconstruction engine.

The development shallowly embeds the event handlers of the indexer
(src/src/CheckpointHandlers.ts, src/src/MorphoV2.ts), the cap checkpoint
manager (src/src/CapCheckpointManager.ts) and the historical snapshot
manager (HistoricalSnapshotManager.ts) over an explicit relational store.

Modelling conventions:
- JavaScript bigint values become Lean `Int` (both are arbitrary precision;
  bigint division truncates toward zero, modelled by `Int.div`).
- Addresses, transaction hashes and identifier hashes are modelled as `Nat`;
  the canonical zero address is `0`.
- Each store table is an association list from its primary key to its row.
  `insert` without a conflict clause fails on a duplicate key (the store
  raises a unique-constraint error), `update` fails on a missing row
  (record-not-found), `onConflictDoUpdate` merges via the caller's function.
- A handler is a function `DB -> DB × Option PErr`: the returned `DB`
  reflects every write applied up to the point of an abort, and the
  `Option PErr` is `some e` exactly when the handler threw.
- External point-in-time contract reads are modelled by explicit oracle
  arguments (`Option` results; `none` is a failed read).
-/

set_option autoImplicit false

namespace MorphoIndexer

/-! ## Generic association-list store primitives -/

section Store

variable {κ : Type} {α : Type} [DecidableEq κ]

/-- Point lookup by primary key (`context.db.find`). -/
def lookupKV : List (κ × α) → κ → Option α
  | [], _ => none
  | (k', v) :: t, k => if k' = k then some v else lookupKV t k

/-- Apply a mutation function to the row stored under `k` (first match). -/
def updKV (f : α → α) : List (κ × α) → κ → List (κ × α)
  | [], _ => []
  | (k', v) :: t, k => if k' = k then (k', f v) :: t else (k', v) :: updKV f t k

/-- Insert-or-update (`insert(...).values(v₀).onConflictDoUpdate(f)`). -/
def upsertKV (l : List (κ × α)) (k : κ) (v₀ : α) (f : α → α) : List (κ × α) :=
  match lookupKV l k with
  | some _ => updKV f l k
  | none => l ++ [(k, v₀)]

/-- Plain insert (`insert(...).values(v)`): `none` signals a unique-key
conflict, which the store surfaces as an error. -/
def insKV (l : List (κ × α)) (k : κ) (v : α) : Option (List (κ × α)) :=
  match lookupKV l k with
  | some _ => none
  | none => some (l ++ [(k, v)])

/-- Sum of a projection over the rows whose key satisfies `p`. -/
def sumKeyBy (p : κ → Bool) (g : α → Int) (l : List (κ × α)) : Int :=
  (l.map (fun q => if p q.1 then g q.2 else 0)).sum

theorem lookupKV_append (l : List (κ × α)) (k₀ k : κ) (v : α) :
    lookupKV (l ++ [(k₀, v)]) k =
      match lookupKV l k with
      | some w => some w
      | none => if k₀ = k then some v else none := by
  induction l with
  | nil => simp [lookupKV]
  | cons h t ih =>
    obtain ⟨k', w⟩ := h
    by_cases hk : k' = k <;> simp [lookupKV, hk, ih]

theorem lookupKV_updKV_self (f : α → α) (l : List (κ × α)) (k : κ) :
    lookupKV (updKV f l k) k = (lookupKV l k).map f := by
  induction l with
  | nil => simp [lookupKV, updKV]
  | cons h t ih =>
    obtain ⟨k', w⟩ := h
    by_cases hk : k' = k <;> simp [lookupKV, updKV, hk, ih]

theorem lookupKV_updKV_ne (f : α → α) (l : List (κ × α)) (k k' : κ)
    (h : k' ≠ k) : lookupKV (updKV f l k) k' = lookupKV l k' := by
  induction l with
  | nil => simp [lookupKV, updKV]
  | cons hd t ih =>
    obtain ⟨k₀, w⟩ := hd
    by_cases hk : k₀ = k
    · subst hk
      have hne : ¬k₀ = k' := fun hh => h (hh ▸ rfl)
      simp [lookupKV, updKV, hne]
    · by_cases hk' : k₀ = k' <;> simp [lookupKV, updKV, hk, hk', h, ih]

theorem lookupKV_upsertKV_self (l : List (κ × α)) (k : κ) (v₀ : α) (f : α → α) :
    lookupKV (upsertKV l k v₀ f) k =
      some (match lookupKV l k with | some w => f w | none => v₀) := by
  unfold upsertKV
  cases h : lookupKV l k with
  | none => simp [lookupKV_append, h]
  | some w => simp [lookupKV_updKV_self, h]

theorem lookupKV_upsertKV_ne (l : List (κ × α)) (k k' : κ) (v₀ : α) (f : α → α)
    (h : k' ≠ k) : lookupKV (upsertKV l k v₀ f) k' = lookupKV l k' := by
  unfold upsertKV
  cases hk : lookupKV l k with
  | none =>
    rw [lookupKV_append]
    cases hk' : lookupKV l k' with
    | none => simp [hk', Ne.symm h]
    | some w => simp [hk']
  | some w => exact lookupKV_updKV_ne f l k k' h

theorem sumKeyBy_updKV (p : κ → Bool) (g : α → Int) (f : α → α)
    (l : List (κ × α)) (k : κ) (w : α) (h : lookupKV l k = some w) :
    sumKeyBy p g (updKV f l k) =
      sumKeyBy p g l + (if p k then g (f w) - g w else 0) := by
  induction l with
  | nil => simp [lookupKV] at h
  | cons hd t ih =>
    obtain ⟨k₀, v⟩ := hd
    by_cases hk : k₀ = k
    · subst hk
      have hvw : v = w := by simpa [lookupKV] using h
      subst hvw
      by_cases hp : p k₀ = true
      · simp [updKV, sumKeyBy, hp]
        ring
      · simp [updKV, sumKeyBy, hp]
    · rw [lookupKV, if_neg hk] at h
      have ihh := ih h
      simp only [updKV, if_neg hk, sumKeyBy, List.map_cons, List.sum_cons] at *
      rw [ihh]; ring

omit [DecidableEq κ] in
theorem sumKeyBy_append (p : κ → Bool) (g : α → Int)
    (l : List (κ × α)) (k : κ) (v : α) :
    sumKeyBy p g (l ++ [(k, v)]) =
      sumKeyBy p g l + (if p k then g v else 0) := by
  simp [sumKeyBy]

theorem sumKeyBy_upsertKV (p : κ → Bool) (g : α → Int)
    (l : List (κ × α)) (k : κ) (v₀ : α) (f : α → α) (hp : p k = true)
    (hdelta : ∀ w : α, g (f w) - g w = g v₀) :
    sumKeyBy p g (upsertKV l k v₀ f) = sumKeyBy p g l + g v₀ := by
  unfold upsertKV
  cases h : lookupKV l k with
  | none => simp [sumKeyBy_append, hp]
  | some w => rw [sumKeyBy_updKV p g f l k w h]; simp [hp, hdelta w]

end Store

/-! ## Data model (ponder.schema.ts)

Addresses, hashes and identifier hashes are `Nat`; the zero address is `0`.
All bigint columns are `Int`, integer columns are `Nat`.
-/

/-- Canonical zero address (viem's `zeroAddress`). -/
def zeroAddress : Nat := 0

/-- Fixed-point unit used for share prices (`WAD = 10^18`). -/
def WAD : Int := 1000000000000000000

/-- Primary key of `vaultV2`: (chainId, address). -/
structure VKey where
  chainId : Nat
  address : Nat
  deriving DecidableEq, Repr

/-- Primary key of `vaultAccount`: (chainId, vaultAddress, accountAddress). -/
structure AKey where
  chainId : Nat
  vaultAddress : Nat
  accountAddress : Nat
  deriving DecidableEq, Repr

/-- Primary key of `identifierState`: (chainId, vaultAddress, identifierHash). -/
structure IKey where
  chainId : Nat
  vaultAddress : Nat
  identifierHash : Nat
  deriving DecidableEq, Repr

/-- The unique event coordinate used for ledger ids:
the source builds the string `chainId-transactionHash-logIndex`, which is
injective in its three components; we keep the components. -/
structure EventKey where
  chainId : Nat
  transactionHash : Nat
  logIndex : Nat
  deriving DecidableEq, Repr

/-- Keys of checkpoint/snapshot rows. `base k` is the plain event id,
`sub k i` is the id suffixed with an array index (one event touching
several identifiers), `snap k` is the id suffixed with `-snapshot`.
The three string shapes are pairwise distinct in the source. -/
inductive CkptId where
  | base (k : EventKey)
  | sub (k : EventKey) (i : Nat)
  | snap (k : EventKey)
  deriving DecidableEq, Repr

/-- A `vaultV2` row (non-key columns), with the schema's column defaults. -/
structure VaultRow where
  createdAtBlock : Int
  createdAtTimestamp : Int
  createdAtTransaction : Nat
  asset : Nat
  owner : Nat
  curator : Nat
  allocators : List Nat := []
  sentinels : List Nat := []
  adapterRegistry : Nat := zeroAddress
  adapters : List Nat := []
  liquidityAdapter : Nat := zeroAddress
  liquidityData : String := ""
  performanceFee : Int := 0
  performanceFeeRecipient : Nat := zeroAddress
  managementFee : Int := 0
  managementFeeRecipient : Nat := zeroAddress
  maxRate : Int := 0
  receiveSharesGate : Nat := zeroAddress
  sendSharesGate : Nat := zeroAddress
  receiveAssetsGate : Nat := zeroAddress
  sendAssetsGate : Nat := zeroAddress
  name : String
  symbol : String
  totalAssets : Int := 0
  totalSupply : Int := 0
  lastUpdateTimestamp : Int := 0
  deriving DecidableEq, Repr

/-- A `vaultAccount` row (non-key columns), with the schema's defaults. -/
structure AccountRow where
  sharesBalance : Int := 0
  depositCount : Nat := 0
  totalDepositedAssets : Int := 0
  totalDepositedShares : Int := 0
  withdrawCount : Nat := 0
  totalWithdrawnAssets : Int := 0
  totalWithdrawnShares : Int := 0
  firstSeenBlockNumber : Int
  firstSeenBlockTimestamp : Int
  lastSeenBlockNumber : Int
  lastSeenBlockTimestamp : Int
  lastTransactionHash : Nat
  lastLogIndex : Nat
  deriving DecidableEq, Repr

/-- An `identifierState` row (non-key columns). -/
structure IdentRow where
  absoluteCap : Int := 0
  relativeCap : Int := 0
  allocation : Int := 0
  deriving DecidableEq, Repr

/-- Shared coordinate columns of every ledger row. -/
structure Coord where
  chainId : Nat
  vaultAddress : Nat
  blockNumber : Int
  blockTimestamp : Int
  transactionHash : Nat
  transactionIndex : Nat
  logIndex : Nat
  deriving DecidableEq, Repr

/-- An `accrueInterestEvent` ledger row. -/
structure AccrueRow where
  coord : Coord
  previousTotalAssets : Int
  newTotalAssets : Int
  performanceFeeShares : Int
  managementFeeShares : Int
  deriving DecidableEq, Repr

/-- A `depositEvent` ledger row. -/
structure DepositRow where
  coord : Coord
  sender : Nat
  onBehalf : Nat
  assets : Int
  shares : Int
  deriving DecidableEq, Repr

/-- A `withdrawEvent` ledger row. -/
structure WithdrawRow where
  coord : Coord
  sender : Nat
  receiver : Nat
  onBehalf : Nat
  assets : Int
  shares : Int
  deriving DecidableEq, Repr

/-- A `transferEvent` ledger row; `fromAddr`/`toAddr` are the source's
`from`/`to` columns (`from` is a reserved word in Lean). -/
structure TransferRow where
  coord : Coord
  fromAddr : Nat
  toAddr : Nat
  shares : Int
  deriving DecidableEq, Repr

/-- An `allocateEvent` or `deallocateEvent` ledger row (same shape). -/
structure AllocateRow where
  coord : Coord
  sender : Nat
  adapter : Nat
  assets : Int
  change : Int
  deriving DecidableEq, Repr

/-- A `forceDeallocateEvent` ledger row. -/
structure ForceDeallocateRow where
  coord : Coord
  sender : Nat
  adapter : Nat
  assets : Int
  onBehalf : Nat
  penaltyAssets : Int
  deriving DecidableEq, Repr

/-- An `absoluteCapChangeEvent` / `relativeCapChangeEvent` ledger row:
`action` is true for "increase", false for "decrease"; `senderAddress` is
null on increases. `newCap` is `newAbsoluteCap` resp. `newRelativeCap`. -/
structure CapChangeRow where
  coord : Coord
  action : Bool
  senderAddress : Option Nat
  marketId : Nat
  idData : Nat
  newCap : Int
  deriving DecidableEq, Repr

/-- A `vaultCheckpoint` row (non-key columns). -/
structure VaultCkptRow where
  chainId : Nat
  vaultAddress : Nat
  blockNumber : Int
  blockTimestamp : Int
  transactionHash : Nat
  logIndex : Nat
  totalAssets : Int
  totalSupply : Int
  maxRate : Int
  performanceFee : Int
  managementFee : Int
  performanceFeeRecipient : Nat
  managementFeeRecipient : Nat
  lastUpdateTimestamp : Int
  deriving DecidableEq, Repr

/-- A `capCheckpoint` row (non-key columns). -/
structure CapCkptRow where
  chainId : Nat
  vaultAddress : Nat
  identifierHash : Nat
  identifierData : Option Nat
  blockNumber : Int
  blockTimestamp : Int
  transactionHash : Nat
  logIndex : Nat
  absoluteCap : Int
  relativeCap : Int
  allocation : Int
  deriving DecidableEq, Repr

/-- A `vaultMetricsHistorical` row (non-key columns). The serialized
hash-to-value maps are kept as association lists of integers (the source
encodes the values as decimal strings, an injective encoding). -/
structure SnapshotRow where
  chainId : Nat
  vaultAddress : Nat
  blockNumber : Int
  blockTimestamp : Int
  transactionHash : Nat
  logIndex : Nat
  eventType : String
  totalAssets : Int
  totalSupply : Int
  rawSharePrice : Int
  sharePrice : Int
  lastUpdateTimestamp : Int
  allocations : List (Nat × Int)
  absoluteCaps : List (Nat × Int)
  relativeCaps : List (Nat × Int)
  totalAllocated : Int
  maxRate : Int
  performanceFee : Int
  managementFee : Int
  performanceFeeRecipient : Nat
  managementFeeRecipient : Nat
  allocators : List Nat
  sentinels : List Nat
  adapters : List Nat
  receiveSharesGate : Nat
  sendSharesGate : Nat
  receiveAssetsGate : Nat
  sendAssetsGate : Nat
  owner : Nat
  curator : Nat
  adapterRegistry : Nat
  liquidityAdapter : Nat
  deriving DecidableEq, Repr

/-- The relational store: one association list per table the modelled
handlers touch. -/
structure DB where
  vaults : List (VKey × VaultRow) := []
  accounts : List (AKey × AccountRow) := []
  idents : List (IKey × IdentRow) := []
  accrueLedger : List (EventKey × AccrueRow) := []
  depositLedger : List (EventKey × DepositRow) := []
  withdrawLedger : List (EventKey × WithdrawRow) := []
  transferLedger : List (EventKey × TransferRow) := []
  allocateLedger : List (EventKey × AllocateRow) := []
  deallocateLedger : List (EventKey × AllocateRow) := []
  forceDeallocateLedger : List (EventKey × ForceDeallocateRow) := []
  absCapLedger : List (EventKey × CapChangeRow) := []
  relCapLedger : List (EventKey × CapChangeRow) := []
  vaultCkpts : List (CkptId × VaultCkptRow) := []
  capCkpts : List (CkptId × CapCkptRow) := []
  snapshots : List (CkptId × SnapshotRow) := []
  deriving DecidableEq, Repr

/-- Errors the storage layer can raise inside a handler:
a unique-key conflict on a plain insert, or an update of a missing row. -/
inductive PErr where
  | uniqueConflict
  | recordNotFound
  deriving DecidableEq, Repr

/-! ## Event records (decoded log + block/transaction context) -/

/-- The event/context data every handler destructures:
chain id, emitting contract address, block and transaction coordinates. -/
structure EvCtx where
  chainId : Nat
  vaultAddress : Nat
  blockNumber : Int
  blockTimestamp : Int
  transactionHash : Nat
  transactionIndex : Nat
  logIndex : Nat
  deriving DecidableEq, Repr

/-- The event id string `chainId-transactionHash-logIndex`. -/
def EvCtx.eventId (c : EvCtx) : EventKey :=
  ⟨c.chainId, c.transactionHash, c.logIndex⟩

/-- The (chainId, address) key of the vault the event targets. -/
def EvCtx.vkey (c : EvCtx) : VKey :=
  ⟨c.chainId, c.vaultAddress⟩

/-- The shared coordinate columns written into every ledger row. -/
def EvCtx.coord (c : EvCtx) : Coord :=
  ⟨c.chainId, c.vaultAddress, c.blockNumber, c.blockTimestamp,
    c.transactionHash, c.transactionIndex, c.logIndex⟩

/-- A decoded `AccrueInterest` event. -/
structure AccrueEv where
  ctx : EvCtx
  previousTotalAssets : Int
  newTotalAssets : Int
  performanceFeeShares : Int
  managementFeeShares : Int
  deriving DecidableEq, Repr

/-- A decoded `Deposit` event. -/
structure DepositEv where
  ctx : EvCtx
  sender : Nat
  onBehalf : Nat
  assets : Int
  shares : Int
  deriving DecidableEq, Repr

/-- A decoded `Withdraw` event. -/
structure WithdrawEv where
  ctx : EvCtx
  sender : Nat
  receiver : Nat
  onBehalf : Nat
  assets : Int
  shares : Int
  deriving DecidableEq, Repr

/-- A decoded `Transfer` event (`fromAddr`/`toAddr` are `from`/`to`). -/
structure TransferEv where
  ctx : EvCtx
  fromAddr : Nat
  toAddr : Nat
  shares : Int
  deriving DecidableEq, Repr

/-- A decoded cap-change event (any of the four kinds): `id` is the
identifier hash, `newCap` the new absolute or relative cap. -/
structure CapEv where
  ctx : EvCtx
  sender : Nat
  id : Nat
  idData : Nat
  newCap : Int
  deriving DecidableEq, Repr

/-- A decoded `Allocate` or `Deallocate` event. -/
structure AllocEv where
  ctx : EvCtx
  sender : Nat
  adapter : Nat
  assets : Int
  change : Int
  ids : List Nat
  deriving DecidableEq, Repr

/-- A decoded `ForceDeallocate` event. -/
structure ForceDeallocEv where
  ctx : EvCtx
  sender : Nat
  adapter : Nat
  assets : Int
  onBehalf : Nat
  penaltyAssets : Int
  ids : List Nat
  deriving DecidableEq, Repr

/-! ## Storage-operation helpers specialised to the tables -/

/-- Sequence an earlier result with the next storage step: an error that was
already raised propagates, otherwise the next step runs on the state so far
(JavaScript `await` chaining with exceptions). -/
def step (r : DB × Option PErr) (f : DB → DB × Option PErr) : DB × Option PErr :=
  match r with
  | (db, none) => f db
  | e => e

/-- `context.db.update(vaultV2, key).set(f)`: fails with a
record-not-found error when the row does not exist. -/
def updateVault (k : VKey) (f : VaultRow → VaultRow) (db : DB) : DB × Option PErr :=
  match lookupKV db.vaults k with
  | none => (db, some .recordNotFound)
  | some _ => ({ db with vaults := updKV f db.vaults k }, none)

/-- Plain insert into the `accrueInterestEvent` ledger. -/
def insertAccrue (k : EventKey) (v : AccrueRow) (db : DB) : DB × Option PErr :=
  match insKV db.accrueLedger k v with
  | some t => ({ db with accrueLedger := t }, none)
  | none => (db, some .uniqueConflict)

/-- Plain insert into the `depositEvent` ledger. -/
def insertDeposit (k : EventKey) (v : DepositRow) (db : DB) : DB × Option PErr :=
  match insKV db.depositLedger k v with
  | some t => ({ db with depositLedger := t }, none)
  | none => (db, some .uniqueConflict)

/-- Plain insert into the `withdrawEvent` ledger. -/
def insertWithdraw (k : EventKey) (v : WithdrawRow) (db : DB) : DB × Option PErr :=
  match insKV db.withdrawLedger k v with
  | some t => ({ db with withdrawLedger := t }, none)
  | none => (db, some .uniqueConflict)

/-- Plain insert into the `transferEvent` ledger. -/
def insertTransfer (k : EventKey) (v : TransferRow) (db : DB) : DB × Option PErr :=
  match insKV db.transferLedger k v with
  | some t => ({ db with transferLedger := t }, none)
  | none => (db, some .uniqueConflict)

/-- Plain insert into the `allocateEvent` ledger. -/
def insertAllocate (k : EventKey) (v : AllocateRow) (db : DB) : DB × Option PErr :=
  match insKV db.allocateLedger k v with
  | some t => ({ db with allocateLedger := t }, none)
  | none => (db, some .uniqueConflict)

/-- Plain insert into the `deallocateEvent` ledger. -/
def insertDeallocate (k : EventKey) (v : AllocateRow) (db : DB) : DB × Option PErr :=
  match insKV db.deallocateLedger k v with
  | some t => ({ db with deallocateLedger := t }, none)
  | none => (db, some .uniqueConflict)

/-- Plain insert into the `forceDeallocateEvent` ledger. -/
def insertForceDeallocate (k : EventKey) (v : ForceDeallocateRow) (db : DB) :
    DB × Option PErr :=
  match insKV db.forceDeallocateLedger k v with
  | some t => ({ db with forceDeallocateLedger := t }, none)
  | none => (db, some .uniqueConflict)

/-- Plain insert into the `absoluteCapChangeEvent` ledger. -/
def insertAbsCap (k : EventKey) (v : CapChangeRow) (db : DB) : DB × Option PErr :=
  match insKV db.absCapLedger k v with
  | some t => ({ db with absCapLedger := t }, none)
  | none => (db, some .uniqueConflict)

/-- Plain insert into the `relativeCapChangeEvent` ledger. -/
def insertRelCap (k : EventKey) (v : CapChangeRow) (db : DB) : DB × Option PErr :=
  match insKV db.relCapLedger k v with
  | some t => ({ db with relCapLedger := t }, none)
  | none => (db, some .uniqueConflict)

/-- Upsert into `vaultAccount` (`onConflictDoUpdate` semantics). -/
def upsertAccount (k : AKey) (v₀ : AccountRow) (f : AccountRow → AccountRow)
    (db : DB) : DB :=
  { db with accounts := upsertKV db.accounts k v₀ f }

/-- Upsert into `identifierState` (`onConflictDoUpdate` semantics). -/
def upsertIdent (k : IKey) (v₀ : IdentRow) (f : IdentRow → IdentRow)
    (db : DB) : DB :=
  { db with idents := upsertKV db.idents k v₀ f }

/-! ## Backfill resolver (`ensureVaultExists`) -/

/-- The minimally-populated vault row `ensureVaultExists` inserts:
creation facts from the current event, zero addresses and empty strings for
the required configuration columns, schema defaults for the rest. -/
def minimalVaultRow (blockNumber blockTimestamp : Int) (transactionHash : Nat) :
    VaultRow :=
  { createdAtBlock := blockNumber
    createdAtTimestamp := blockTimestamp
    createdAtTransaction := transactionHash
    asset := zeroAddress
    owner := zeroAddress
    curator := zeroAddress
    name := ""
    symbol := "" }

/-- `ensureVaultExists` as implemented in `src/src/CheckpointHandlers.ts`
and `src/src/MorphoV2.ts` (identical up to logging): look the vault up and,
when absent, insert the minimal zero-fallback row directly. No external
read is attempted, so the function needs no oracle argument. -/
def ensureVaultExists (c : EvCtx) (db : DB) : DB :=
  match lookupKV db.vaults c.vkey with
  | some _ => db
  | none =>
      { db with vaults := db.vaults ++
          [(c.vkey, minimalVaultRow c.blockNumber c.blockTimestamp c.transactionHash)] }

/-- The full configuration the external point-in-time read interface can
return for a vault (owner, asset, fee config, rate, gates, adapters,
name/symbol, accounting totals). -/
structure VaultConfig where
  asset : Nat
  owner : Nat
  curator : Nat
  performanceFee : Int
  performanceFeeRecipient : Nat
  managementFee : Int
  managementFeeRecipient : Nat
  maxRate : Int
  receiveSharesGate : Nat
  sendSharesGate : Nat
  receiveAssetsGate : Nat
  sendAssetsGate : Nat
  adapters : List Nat
  name : String
  symbol : String
  totalAssets : Int
  totalSupply : Int
  deriving DecidableEq, Repr

/-- Modelled from the spec: §4.1 describes a backfill resolver that, when
the vault row is absent, first attempts to read the vault's full
configuration from the external point-in-time read interface as of the
event's block and inserts a fully-populated row, falling back to the
zero-fallback row only when those reads fail. No such implementation
exists under `src/` (an earlier handler iteration imports it from a
`utils/vaultInitializer` module that is not among the sources). `read` is
the outcome of the external reads (`none` = failure). This definition
exists to be compared against `ensureVaultExists` above. -/
def ensureVaultExistsSpec (read : Option VaultConfig) (c : EvCtx) (db : DB) : DB :=
  match lookupKV db.vaults c.vkey with
  | some _ => db
  | none =>
    match read with
    | some cfg =>
        { db with vaults := db.vaults ++
            [(c.vkey,
              { createdAtBlock := c.blockNumber
                createdAtTimestamp := c.blockTimestamp
                createdAtTransaction := c.transactionHash
                asset := cfg.asset
                owner := cfg.owner
                curator := cfg.curator
                performanceFee := cfg.performanceFee
                performanceFeeRecipient := cfg.performanceFeeRecipient
                managementFee := cfg.managementFee
                managementFeeRecipient := cfg.managementFeeRecipient
                maxRate := cfg.maxRate
                receiveSharesGate := cfg.receiveSharesGate
                sendSharesGate := cfg.sendSharesGate
                receiveAssetsGate := cfg.receiveAssetsGate
                sendAssetsGate := cfg.sendAssetsGate
                adapters := cfg.adapters
                name := cfg.name
                symbol := cfg.symbol
                totalAssets := cfg.totalAssets
                totalSupply := cfg.totalSupply })] }
    | none =>
        { db with vaults := db.vaults ++
            [(c.vkey, minimalVaultRow c.blockNumber c.blockTimestamp c.transactionHash)] }

/-! ## Checkpoint managers -/

/-- The vault-state projection `VaultCheckpointManager.getCurrentState`
returns (with its zero fallback for unknown vaults). -/
structure VaultState where
  totalAssets : Int
  totalSupply : Int
  maxRate : Int
  performanceFee : Int
  managementFee : Int
  performanceFeeRecipient : Nat
  managementFeeRecipient : Nat
  lastUpdateTimestamp : Int
  deriving DecidableEq, Repr

/-- `VaultCheckpointManager.getCurrentState`. -/
def vaultGetCurrentState (db : DB) (chainId vaultAddress : Nat) : VaultState :=
  match lookupKV db.vaults ⟨chainId, vaultAddress⟩ with
  | some v =>
      { totalAssets := v.totalAssets
        totalSupply := v.totalSupply
        maxRate := v.maxRate
        performanceFee := v.performanceFee
        managementFee := v.managementFee
        performanceFeeRecipient := v.performanceFeeRecipient
        managementFeeRecipient := v.managementFeeRecipient
        lastUpdateTimestamp := v.lastUpdateTimestamp }
  | none =>
      { totalAssets := 0
        totalSupply := 0
        maxRate := 0
        performanceFee := 0
        managementFee := 0
        performanceFeeRecipient := zeroAddress
        managementFeeRecipient := zeroAddress
        lastUpdateTimestamp := 0 }

/-- Modelled from the spec: the `handleAccountingEvent` method the handlers
call is not among the provided sources (the `VaultCheckpointManager.ts`
present holds only per-event variants and the shared `getCurrentState` /
`createCheckpoint`); spec §4.5: read the current projected state
(post-mutation) and insert an immutable snapshot row keyed by the event's
unique coordinate. Built from the manager's `getCurrentState` and
`createCheckpoint`. -/
def handleAccountingEvent (chainId vaultAddress : Nat) (k : CkptId)
    (blockNumber blockTimestamp : Int) (transactionHash logIndex : Nat)
    (db : DB) : DB × Option PErr :=
  let s := vaultGetCurrentState db chainId vaultAddress
  match insKV db.vaultCkpts k
      { chainId := chainId
        vaultAddress := vaultAddress
        blockNumber := blockNumber
        blockTimestamp := blockTimestamp
        transactionHash := transactionHash
        logIndex := logIndex
        totalAssets := s.totalAssets
        totalSupply := s.totalSupply
        maxRate := s.maxRate
        performanceFee := s.performanceFee
        managementFee := s.managementFee
        performanceFeeRecipient := s.performanceFeeRecipient
        managementFeeRecipient := s.managementFeeRecipient
        lastUpdateTimestamp := s.lastUpdateTimestamp } with
  | some t => ({ db with vaultCkpts := t }, none)
  | none => (db, some .uniqueConflict)

/-- `CapCheckpointManager.getCurrentState`: current identifier state with
the all-zero fallback for new identifiers. -/
def capGetCurrentState (db : DB) (chainId vaultAddress identifierHash : Nat) :
    IdentRow :=
  match lookupKV db.idents ⟨chainId, vaultAddress, identifierHash⟩ with
  | some s => s
  | none => {}

/-- `CapCheckpointManager.handleCapOrAllocationChange`: read the current
identifier state and insert a `capCheckpoint` row under the given id. -/
def handleCapOrAllocationChange (chainId vaultAddress identifierHash : Nat)
    (k : CkptId) (blockNumber blockTimestamp : Int)
    (transactionHash logIndex : Nat) (identifierData : Option Nat)
    (db : DB) : DB × Option PErr :=
  let s := capGetCurrentState db chainId vaultAddress identifierHash
  match insKV db.capCkpts k
      { chainId := chainId
        vaultAddress := vaultAddress
        identifierHash := identifierHash
        identifierData := identifierData
        blockNumber := blockNumber
        blockTimestamp := blockTimestamp
        transactionHash := transactionHash
        logIndex := logIndex
        absoluteCap := s.absoluteCap
        relativeCap := s.relativeCap
        allocation := s.allocation } with
  | some t => ({ db with capCkpts := t }, none)
  | none => (db, some .uniqueConflict)

/-! ## Historical snapshot manager (`HistoricalSnapshotManager.createSnapshot`) -/

/-- All `identifierState` rows of one vault
(the snapshot manager's select over the identifier table). -/
def identsOfVault (db : DB) (chainId vaultAddress : Nat) :
    List (IKey × IdentRow) :=
  db.idents.filter
    (fun q => q.1.chainId == chainId && q.1.vaultAddress == vaultAddress)

/-- `HistoricalSnapshotManager.createSnapshot`: build and insert one
denormalized snapshot row. `o` is the outcome of the external
`convertToAssets(1e18)` read (`none` = the call threw). The read of the
most recent previous snapshot feeds only the structured log message in the
source and is therefore not modelled. A missing vault row is a logged
no-op, not an error. -/
def createSnapshot (o : Option Int) (chainId vaultAddress : Nat) (k : CkptId)
    (blockNumber blockTimestamp : Int) (transactionHash logIndex : Nat)
    (eventType : String) (db : DB) : DB × Option PErr :=
  match lookupKV db.vaults ⟨chainId, vaultAddress⟩ with
  | none => (db, none)
  | some vault =>
    let identifiers := identsOfVault db chainId vaultAddress
    let allocations := identifiers.map (fun q => (q.1.identifierHash, q.2.allocation))
    let absoluteCaps := identifiers.map (fun q => (q.1.identifierHash, q.2.absoluteCap))
    let relativeCaps := identifiers.map (fun q => (q.1.identifierHash, q.2.relativeCap))
    let totalAllocated := (identifiers.map (fun q => q.2.allocation)).sum
    let rawSharePrice :=
      if vault.totalSupply > 0 then Int.tdiv (vault.totalAssets * WAD) vault.totalSupply
      else WAD
    let sharePrice := match o with | some p => p | none => rawSharePrice
    match insKV db.snapshots k
        { chainId := chainId
          vaultAddress := vaultAddress
          blockNumber := blockNumber
          blockTimestamp := blockTimestamp
          transactionHash := transactionHash
          logIndex := logIndex
          eventType := eventType
          totalAssets := vault.totalAssets
          totalSupply := vault.totalSupply
          rawSharePrice := rawSharePrice
          sharePrice := sharePrice
          lastUpdateTimestamp := vault.lastUpdateTimestamp
          allocations := allocations
          absoluteCaps := absoluteCaps
          relativeCaps := relativeCaps
          totalAllocated := totalAllocated
          maxRate := vault.maxRate
          performanceFee := vault.performanceFee
          managementFee := vault.managementFee
          performanceFeeRecipient := vault.performanceFeeRecipient
          managementFeeRecipient := vault.managementFeeRecipient
          allocators := vault.allocators
          sentinels := vault.sentinels
          adapters := vault.adapters
          receiveSharesGate := vault.receiveSharesGate
          sendSharesGate := vault.sendSharesGate
          receiveAssetsGate := vault.receiveAssetsGate
          sendAssetsGate := vault.sendAssetsGate
          owner := vault.owner
          curator := vault.curator
          adapterRegistry := vault.adapterRegistry
          liquidityAdapter := vault.liquidityAdapter } with
    | some t => ({ db with snapshots := t }, none)
    | none => (db, some .uniqueConflict)

/-! ## Accounting event handlers (src/src/CheckpointHandlers.ts) -/

/-- Handler for `MorphoV2:AccrueInterest`: backfill, ledger insert, set
`totalAssets`/`lastUpdateTimestamp` on the vault row, checkpoint,
historical snapshot. -/
def onAccrueInterest (o : Option Int) (e : AccrueEv) (db : DB) :
    DB × Option PErr :=
  let c := e.ctx
  let db := ensureVaultExists c db
  step (insertAccrue c.eventId
      { coord := c.coord
        previousTotalAssets := e.previousTotalAssets
        newTotalAssets := e.newTotalAssets
        performanceFeeShares := e.performanceFeeShares
        managementFeeShares := e.managementFeeShares } db) (fun db =>
  step (updateVault c.vkey
      (fun r => { r with
        totalAssets := e.newTotalAssets
        lastUpdateTimestamp := c.blockTimestamp }) db) (fun db =>
  step (handleAccountingEvent c.chainId c.vaultAddress (.base c.eventId)
      c.blockNumber c.blockTimestamp c.transactionHash c.logIndex db) (fun db =>
  createSnapshot o c.chainId c.vaultAddress (.snap c.eventId)
      c.blockNumber c.blockTimestamp c.transactionHash c.logIndex
      "AccrueInterest" db)))

/-- Handler for `MorphoV2:Deposit`: backfill, ledger insert,
`totalAssets += assets` on the vault row, depositor-account upsert with
additive conflict resolution, checkpoint, historical snapshot. The
`try`/`catch` in the source logs and rethrows, so it does not change the
state semantics. -/
def onDeposit (o : Option Int) (e : DepositEv) (db : DB) : DB × Option PErr :=
  let c := e.ctx
  let db := ensureVaultExists c db
  step (insertDeposit c.eventId
      { coord := c.coord
        sender := e.sender
        onBehalf := e.onBehalf
        assets := e.assets
        shares := e.shares } db) (fun db =>
  step (updateVault c.vkey
      (fun r => { r with totalAssets := r.totalAssets + e.assets }) db) (fun db =>
  let db := upsertAccount ⟨c.chainId, c.vaultAddress, e.onBehalf⟩
      { sharesBalance := 0
        depositCount := 1
        totalDepositedAssets := e.assets
        totalDepositedShares := e.shares
        firstSeenBlockNumber := c.blockNumber
        firstSeenBlockTimestamp := c.blockTimestamp
        lastSeenBlockNumber := c.blockNumber
        lastSeenBlockTimestamp := c.blockTimestamp
        lastTransactionHash := c.transactionHash
        lastLogIndex := c.logIndex }
      (fun r => { r with
        depositCount := r.depositCount + 1
        totalDepositedAssets := r.totalDepositedAssets + e.assets
        totalDepositedShares := r.totalDepositedShares + e.shares
        lastSeenBlockNumber := c.blockNumber
        lastSeenBlockTimestamp := c.blockTimestamp
        lastTransactionHash := c.transactionHash
        lastLogIndex := c.logIndex }) db
  step (handleAccountingEvent c.chainId c.vaultAddress (.base c.eventId)
      c.blockNumber c.blockTimestamp c.transactionHash c.logIndex db) (fun db =>
  createSnapshot o c.chainId c.vaultAddress (.snap c.eventId)
      c.blockNumber c.blockTimestamp c.transactionHash c.logIndex
      "Deposit" db)))

/-- Handler for `MorphoV2:Withdraw`: backfill, ledger insert,
`totalAssets -= assets` on the vault row, depositor-account upsert on the
withdraw counters, checkpoint, historical snapshot. -/
def onWithdraw (o : Option Int) (e : WithdrawEv) (db : DB) : DB × Option PErr :=
  let c := e.ctx
  let db := ensureVaultExists c db
  step (insertWithdraw c.eventId
      { coord := c.coord
        sender := e.sender
        receiver := e.receiver
        onBehalf := e.onBehalf
        assets := e.assets
        shares := e.shares } db) (fun db =>
  step (updateVault c.vkey
      (fun r => { r with totalAssets := r.totalAssets - e.assets }) db) (fun db =>
  let db := upsertAccount ⟨c.chainId, c.vaultAddress, e.onBehalf⟩
      { sharesBalance := 0
        withdrawCount := 1
        totalWithdrawnAssets := e.assets
        totalWithdrawnShares := e.shares
        firstSeenBlockNumber := c.blockNumber
        firstSeenBlockTimestamp := c.blockTimestamp
        lastSeenBlockNumber := c.blockNumber
        lastSeenBlockTimestamp := c.blockTimestamp
        lastTransactionHash := c.transactionHash
        lastLogIndex := c.logIndex }
      (fun r => { r with
        withdrawCount := r.withdrawCount + 1
        totalWithdrawnAssets := r.totalWithdrawnAssets + e.assets
        totalWithdrawnShares := r.totalWithdrawnShares + e.shares
        lastSeenBlockNumber := c.blockNumber
        lastSeenBlockTimestamp := c.blockTimestamp
        lastTransactionHash := c.transactionHash
        lastLogIndex := c.logIndex }) db
  step (handleAccountingEvent c.chainId c.vaultAddress (.base c.eventId)
      c.blockNumber c.blockTimestamp c.transactionHash c.logIndex db) (fun db =>
  createSnapshot o c.chainId c.vaultAddress (.snap c.eventId)
      c.blockNumber c.blockTimestamp c.transactionHash c.logIndex
      "Withdraw" db)))

/-- The Transfer handler's inner `applyShareDelta`: upsert-with-delta on
the account's share balance, skipping the zero address. -/
def applyShareDelta (c : EvCtx) (accountAddress : Nat) (delta : Int)
    (db : DB) : DB :=
  if accountAddress = zeroAddress then db
  else
    upsertAccount ⟨c.chainId, c.vaultAddress, accountAddress⟩
      { sharesBalance := delta
        firstSeenBlockNumber := c.blockNumber
        firstSeenBlockTimestamp := c.blockTimestamp
        lastSeenBlockNumber := c.blockNumber
        lastSeenBlockTimestamp := c.blockTimestamp
        lastTransactionHash := c.transactionHash
        lastLogIndex := c.logIndex }
      (fun r => { r with
        sharesBalance := r.sharesBalance + delta
        lastSeenBlockNumber := c.blockNumber
        lastSeenBlockTimestamp := c.blockTimestamp
        lastTransactionHash := c.transactionHash
        lastLogIndex := c.logIndex }) db

/-- Handler for `MorphoV2:Transfer`: ledger insert, share-balance deltas
for nonzero endpoints, then — for a mint (`from` is the zero address,
checked first) or a burn (`to` is the zero address) — the vault
`totalSupply` update, checkpoint and historical snapshot. Note the source
does NOT call `ensureVaultExists` in this handler. -/
def onTransfer (o : Option Int) (e : TransferEv) (db : DB) : DB × Option PErr :=
  let c := e.ctx
  step (insertTransfer c.eventId
      { coord := c.coord
        fromAddr := e.fromAddr
        toAddr := e.toAddr
        shares := e.shares } db) (fun db =>
  let db := if e.fromAddr ≠ zeroAddress then applyShareDelta c e.fromAddr (-e.shares) db else db
  let db := if e.toAddr ≠ zeroAddress then applyShareDelta c e.toAddr e.shares db else db
  if e.fromAddr = zeroAddress then
    step (updateVault c.vkey
        (fun r => { r with totalSupply := r.totalSupply + e.shares }) db) (fun db =>
    step (handleAccountingEvent c.chainId c.vaultAddress (.base c.eventId)
        c.blockNumber c.blockTimestamp c.transactionHash c.logIndex db) (fun db =>
    createSnapshot o c.chainId c.vaultAddress (.snap c.eventId)
        c.blockNumber c.blockTimestamp c.transactionHash c.logIndex
        "Transfer" db))
  else if e.toAddr = zeroAddress then
    step (updateVault c.vkey
        (fun r => { r with totalSupply := r.totalSupply - e.shares }) db) (fun db =>
    step (handleAccountingEvent c.chainId c.vaultAddress (.base c.eventId)
        c.blockNumber c.blockTimestamp c.transactionHash c.logIndex db) (fun db =>
    createSnapshot o c.chainId c.vaultAddress (.snap c.eventId)
        c.blockNumber c.blockTimestamp c.transactionHash c.logIndex
        "Transfer" db))
  else (db, none))

/-! ## Cap and allocation handlers (src/src/MorphoV2.ts) -/

/-- Handler for `MorphoV2:IncreaseAbsoluteCap`: ledger insert, upsert of the
identifier's absolute cap (new rows get zero relative cap and allocation),
cap checkpoint, historical snapshot. -/
def onIncreaseAbsoluteCap (o : Option Int) (e : CapEv) (db : DB) :
    DB × Option PErr :=
  let c := e.ctx
  step (insertAbsCap c.eventId
      { coord := c.coord
        action := true
        senderAddress := none
        marketId := e.id
        idData := e.idData
        newCap := e.newCap } db) (fun db =>
  let db := upsertIdent ⟨c.chainId, c.vaultAddress, e.id⟩
      { absoluteCap := e.newCap, relativeCap := 0, allocation := 0 }
      (fun r => { r with absoluteCap := e.newCap }) db
  step (handleCapOrAllocationChange c.chainId c.vaultAddress e.id
      (.base c.eventId) c.blockNumber c.blockTimestamp c.transactionHash
      c.logIndex (some e.idData) db) (fun db =>
  createSnapshot o c.chainId c.vaultAddress (.snap c.eventId)
      c.blockNumber c.blockTimestamp c.transactionHash c.logIndex
      "IncreaseAbsoluteCap" db))

/-- Handler for `MorphoV2:DecreaseAbsoluteCap` (same upsert as the
increase; the ledger row records the sender and the "decrease" action). -/
def onDecreaseAbsoluteCap (o : Option Int) (e : CapEv) (db : DB) :
    DB × Option PErr :=
  let c := e.ctx
  step (insertAbsCap c.eventId
      { coord := c.coord
        action := false
        senderAddress := some e.sender
        marketId := e.id
        idData := e.idData
        newCap := e.newCap } db) (fun db =>
  let db := upsertIdent ⟨c.chainId, c.vaultAddress, e.id⟩
      { absoluteCap := e.newCap, relativeCap := 0, allocation := 0 }
      (fun r => { r with absoluteCap := e.newCap }) db
  step (handleCapOrAllocationChange c.chainId c.vaultAddress e.id
      (.base c.eventId) c.blockNumber c.blockTimestamp c.transactionHash
      c.logIndex (some e.idData) db) (fun db =>
  createSnapshot o c.chainId c.vaultAddress (.snap c.eventId)
      c.blockNumber c.blockTimestamp c.transactionHash c.logIndex
      "DecreaseAbsoluteCap" db))

/-- Handler for `MorphoV2:IncreaseRelativeCap`: as the absolute-cap
handlers, but replacing the relative cap (new rows get zero absolute cap
and allocation). -/
def onIncreaseRelativeCap (o : Option Int) (e : CapEv) (db : DB) :
    DB × Option PErr :=
  let c := e.ctx
  step (insertRelCap c.eventId
      { coord := c.coord
        action := true
        senderAddress := none
        marketId := e.id
        idData := e.idData
        newCap := e.newCap } db) (fun db =>
  let db := upsertIdent ⟨c.chainId, c.vaultAddress, e.id⟩
      { absoluteCap := 0, relativeCap := e.newCap, allocation := 0 }
      (fun r => { r with relativeCap := e.newCap }) db
  step (handleCapOrAllocationChange c.chainId c.vaultAddress e.id
      (.base c.eventId) c.blockNumber c.blockTimestamp c.transactionHash
      c.logIndex (some e.idData) db) (fun db =>
  createSnapshot o c.chainId c.vaultAddress (.snap c.eventId)
      c.blockNumber c.blockTimestamp c.transactionHash c.logIndex
      "IncreaseRelativeCap" db))

/-- Handler for `MorphoV2:DecreaseRelativeCap`. -/
def onDecreaseRelativeCap (o : Option Int) (e : CapEv) (db : DB) :
    DB × Option PErr :=
  let c := e.ctx
  step (insertRelCap c.eventId
      { coord := c.coord
        action := false
        senderAddress := some e.sender
        marketId := e.id
        idData := e.idData
        newCap := e.newCap } db) (fun db =>
  let db := upsertIdent ⟨c.chainId, c.vaultAddress, e.id⟩
      { absoluteCap := 0, relativeCap := e.newCap, allocation := 0 }
      (fun r => { r with relativeCap := e.newCap }) db
  step (handleCapOrAllocationChange c.chainId c.vaultAddress e.id
      (.base c.eventId) c.blockNumber c.blockTimestamp c.transactionHash
      c.logIndex (some e.idData) db) (fun db =>
  createSnapshot o c.chainId c.vaultAddress (.snap c.eventId)
      c.blockNumber c.blockTimestamp c.transactionHash c.logIndex
      "DecreaseRelativeCap" db))

/-- The per-identifier loop shared by the `Allocate`, `Deallocate` and
`ForceDeallocate` handlers: for the `i`-th identifier, additively upsert
`change` into its allocation (a new row starts at `change` with zero
caps), then insert a cap checkpoint under the id suffixed with `i`
(`identifierData` is null for allocation events). -/
def allocLoop (c : EvCtx) (change : Int) : List Nat → Nat → DB → DB × Option PErr
  | [], _, db => (db, none)
  | identifierHash :: rest, i, db =>
    let db := upsertIdent ⟨c.chainId, c.vaultAddress, identifierHash⟩
        { absoluteCap := 0, relativeCap := 0, allocation := change }
        (fun r => { r with allocation := r.allocation + change }) db
    match handleCapOrAllocationChange c.chainId c.vaultAddress identifierHash
        (.sub c.eventId i) c.blockNumber c.blockTimestamp c.transactionHash
        c.logIndex none db with
    | (db, none) => allocLoop c change rest (i + 1) db
    | e => e

/-- Handler for `MorphoV2:Allocate`: one ledger row for the event, then the
per-identifier loop applying `change`, then one historical snapshot. -/
def onAllocate (o : Option Int) (e : AllocEv) (db : DB) : DB × Option PErr :=
  let c := e.ctx
  step (insertAllocate c.eventId
      { coord := c.coord
        sender := e.sender
        adapter := e.adapter
        assets := e.assets
        change := e.change } db) (fun db =>
  step (allocLoop c e.change e.ids 0 db) (fun db =>
  createSnapshot o c.chainId c.vaultAddress (.snap c.eventId)
      c.blockNumber c.blockTimestamp c.transactionHash c.logIndex
      "Allocate" db))

/-- Handler for `MorphoV2:Deallocate` (identical to `Allocate` except for
the ledger table and the snapshot's event type). -/
def onDeallocate (o : Option Int) (e : AllocEv) (db : DB) : DB × Option PErr :=
  let c := e.ctx
  step (insertDeallocate c.eventId
      { coord := c.coord
        sender := e.sender
        adapter := e.adapter
        assets := e.assets
        change := e.change } db) (fun db =>
  step (allocLoop c e.change e.ids 0 db) (fun db =>
  createSnapshot o c.chainId c.vaultAddress (.snap c.eventId)
      c.blockNumber c.blockTimestamp c.transactionHash c.logIndex
      "Deallocate" db))

/-- Handler for `MorphoV2:ForceDeallocate`: backfill, one ledger row
(recording the penalty), then the per-identifier loop with the
allocation change `-(assets)` — the penalty amount is not part of the
delta — then one historical snapshot. -/
def onForceDeallocate (o : Option Int) (e : ForceDeallocEv) (db : DB) :
    DB × Option PErr :=
  let c := e.ctx
  let db := ensureVaultExists c db
  step (insertForceDeallocate c.eventId
      { coord := c.coord
        sender := e.sender
        adapter := e.adapter
        assets := e.assets
        onBehalf := e.onBehalf
        penaltyAssets := e.penaltyAssets } db) (fun db =>
  step (allocLoop c (-e.assets) e.ids 0 db) (fun db =>
  createSnapshot o c.chainId c.vaultAddress (.snap c.eventId)
      c.blockNumber c.blockTimestamp c.transactionHash c.logIndex
      "ForceDeallocate" db))

/-! ## Frame lemmas: which tables the checkpoint and snapshot writers leave
untouched -/

theorem step_ok (db : DB) (f : DB → DB × Option PErr) :
    step (db, none) f = f db := rfl

theorem step_err (db : DB) (e : PErr) (f : DB → DB × Option PErr) :
    step (db, some e) f = (db, some e) := rfl

theorem handleAccountingEvent_vaults (a₁ a₂ : Nat) (k : CkptId)
    (bn ts : Int) (th li : Nat) (db : DB) :
    ((handleAccountingEvent a₁ a₂ k bn ts th li db).1).vaults = db.vaults := by
  simp only [handleAccountingEvent]
  split <;> rfl

theorem handleAccountingEvent_accounts (a₁ a₂ : Nat) (k : CkptId)
    (bn ts : Int) (th li : Nat) (db : DB) :
    ((handleAccountingEvent a₁ a₂ k bn ts th li db).1).accounts = db.accounts := by
  simp only [handleAccountingEvent]
  split <;> rfl

theorem handleAccountingEvent_transferLedger (a₁ a₂ : Nat) (k : CkptId)
    (bn ts : Int) (th li : Nat) (db : DB) :
    ((handleAccountingEvent a₁ a₂ k bn ts th li db).1).transferLedger =
      db.transferLedger := by
  simp only [handleAccountingEvent]
  split <;> rfl

theorem createSnapshot_vaults (o : Option Int) (a₁ a₂ : Nat) (k : CkptId)
    (bn ts : Int) (th li : Nat) (ty : String) (db : DB) :
    ((createSnapshot o a₁ a₂ k bn ts th li ty db).1).vaults = db.vaults := by
  simp only [createSnapshot]
  split
  · rfl
  · split <;> rfl

theorem createSnapshot_accounts (o : Option Int) (a₁ a₂ : Nat) (k : CkptId)
    (bn ts : Int) (th li : Nat) (ty : String) (db : DB) :
    ((createSnapshot o a₁ a₂ k bn ts th li ty db).1).accounts = db.accounts := by
  simp only [createSnapshot]
  split
  · rfl
  · split <;> rfl

theorem createSnapshot_transferLedger (o : Option Int) (a₁ a₂ : Nat)
    (k : CkptId) (bn ts : Int) (th li : Nat) (ty : String) (db : DB) :
    ((createSnapshot o a₁ a₂ k bn ts th li ty db).1).transferLedger =
      db.transferLedger := by
  simp only [createSnapshot]
  split
  · rfl
  · split <;> rfl

theorem createSnapshot_idents (o : Option Int) (a₁ a₂ : Nat) (k : CkptId)
    (bn ts : Int) (th li : Nat) (ty : String) (db : DB) :
    ((createSnapshot o a₁ a₂ k bn ts th li ty db).1).idents = db.idents := by
  simp only [createSnapshot]
  split
  · rfl
  · split <;> rfl

theorem createSnapshot_capCkpts (o : Option Int) (a₁ a₂ : Nat) (k : CkptId)
    (bn ts : Int) (th li : Nat) (ty : String) (db : DB) :
    ((createSnapshot o a₁ a₂ k bn ts th li ty db).1).capCkpts = db.capCkpts := by
  simp only [createSnapshot]
  split
  · rfl
  · split <;> rfl

theorem handleCapOrAllocationChange_idents (a₁ a₂ a₃ : Nat) (k : CkptId)
    (bn ts : Int) (th li : Nat) (d : Option Nat) (db : DB) :
    ((handleCapOrAllocationChange a₁ a₂ a₃ k bn ts th li d db).1).idents =
      db.idents := by
  simp only [handleCapOrAllocationChange]
  split <;> rfl

theorem handleCapOrAllocationChange_vaults (a₁ a₂ a₃ : Nat) (k : CkptId)
    (bn ts : Int) (th li : Nat) (d : Option Nat) (db : DB) :
    ((handleCapOrAllocationChange a₁ a₂ a₃ k bn ts th li d db).1).vaults =
      db.vaults := by
  simp only [handleCapOrAllocationChange]
  split <;> rfl

/-- The checkpoint-then-snapshot tail shared by the accounting handlers
leaves the vault table untouched. -/
theorem stepCkptSnap_vaults (a₁ a₂ : Nat) (k₁ : CkptId) (bn ts : Int)
    (th li : Nat) (o : Option Int) (k₂ : CkptId) (ty : String) (db : DB) :
    ((step (handleAccountingEvent a₁ a₂ k₁ bn ts th li db)
        (fun db' => createSnapshot o a₁ a₂ k₂ bn ts th li ty db')).1).vaults =
      db.vaults := by
  rcases h : handleAccountingEvent a₁ a₂ k₁ bn ts th li db with ⟨db', err⟩
  have hv : db'.vaults = db.vaults := by
    have := handleAccountingEvent_vaults a₁ a₂ k₁ bn ts th li db
    rw [h] at this
    exact this
  cases err with
  | none => simp [step, createSnapshot_vaults, hv]
  | some e => simpa [step] using hv

/-- The checkpoint-then-snapshot tail leaves the account table untouched. -/
theorem stepCkptSnap_accounts (a₁ a₂ : Nat) (k₁ : CkptId) (bn ts : Int)
    (th li : Nat) (o : Option Int) (k₂ : CkptId) (ty : String) (db : DB) :
    ((step (handleAccountingEvent a₁ a₂ k₁ bn ts th li db)
        (fun db' => createSnapshot o a₁ a₂ k₂ bn ts th li ty db')).1).accounts =
      db.accounts := by
  rcases h : handleAccountingEvent a₁ a₂ k₁ bn ts th li db with ⟨db', err⟩
  have hv : db'.accounts = db.accounts := by
    have := handleAccountingEvent_accounts a₁ a₂ k₁ bn ts th li db
    rw [h] at this
    exact this
  cases err with
  | none => simp [step, createSnapshot_accounts, hv]
  | some e => simpa [step] using hv

/-- The checkpoint-then-snapshot tail leaves the transfer ledger untouched. -/
theorem stepCkptSnap_transferLedger (a₁ a₂ : Nat) (k₁ : CkptId) (bn ts : Int)
    (th li : Nat) (o : Option Int) (k₂ : CkptId) (ty : String) (db : DB) :
    ((step (handleAccountingEvent a₁ a₂ k₁ bn ts th li db)
        (fun db' => createSnapshot o a₁ a₂ k₂ bn ts th li ty db')).1).transferLedger =
      db.transferLedger := by
  rcases h : handleAccountingEvent a₁ a₂ k₁ bn ts th li db with ⟨db', err⟩
  have hv : db'.transferLedger = db.transferLedger := by
    have := handleAccountingEvent_transferLedger a₁ a₂ k₁ bn ts th li db
    rw [h] at this
    exact this
  cases err with
  | none => simp [step, createSnapshot_transferLedger, hv]
  | some e => simpa [step] using hv

/-- `applyShareDelta` only touches the account table. -/
theorem applyShareDelta_vaults (c : EvCtx) (a : Nat) (d : Int) (db : DB) :
    (applyShareDelta c a d db).vaults = db.vaults := by
  unfold applyShareDelta upsertAccount
  split <;> rfl

theorem applyShareDelta_transferLedger (c : EvCtx) (a : Nat) (d : Int)
    (db : DB) :
    (applyShareDelta c a d db).transferLedger = db.transferLedger := by
  unfold applyShareDelta upsertAccount
  split <;> rfl

theorem ite_applyShareDelta_vaults (P : Prop) [Decidable P] (c : EvCtx)
    (a : Nat) (d : Int) (db : DB) :
    (if P then applyShareDelta c a d db else db).vaults = db.vaults := by
  split <;> simp [applyShareDelta_vaults]

theorem ite_applyShareDelta_vaults' (P : Prop) [Decidable P] (c : EvCtx)
    (a : Nat) (d : Int) (db : DB) :
    (if P then db else applyShareDelta c a d db).vaults = db.vaults := by
  split <;> simp [applyShareDelta_vaults]

/-! ## Per-handler characterisation of the vault-row accounting update -/

theorem onAccrueInterest_vaultRow (o : Option Int) (e : AccrueEv) (db : DB)
    (r : VaultRow)
    (hv : lookupKV db.vaults e.ctx.vkey = some r)
    (hled : lookupKV db.accrueLedger e.ctx.eventId = none) :
    lookupKV ((onAccrueInterest o e db).1).vaults e.ctx.vkey =
      some { r with totalAssets := e.newTotalAssets
                    lastUpdateTimestamp := e.ctx.blockTimestamp } := by
  simp only [onAccrueInterest, ensureVaultExists, hv, insertAccrue, insKV,
    hled, step_ok, step_err, updateVault]
  simp only [stepCkptSnap_vaults]
  simp [lookupKV_updKV_self, hv]

theorem onDeposit_vaultRow (o : Option Int) (e : DepositEv) (db : DB)
    (r : VaultRow)
    (hv : lookupKV db.vaults e.ctx.vkey = some r)
    (hled : lookupKV db.depositLedger e.ctx.eventId = none) :
    lookupKV ((onDeposit o e db).1).vaults e.ctx.vkey =
      some { r with totalAssets := r.totalAssets + e.assets } := by
  simp only [onDeposit, ensureVaultExists, hv, insertDeposit, insKV,
    hled, step_ok, step_err, updateVault, upsertAccount]
  simp only [stepCkptSnap_vaults]
  simp [lookupKV_updKV_self, hv]

theorem onWithdraw_vaultRow (o : Option Int) (e : WithdrawEv) (db : DB)
    (r : VaultRow)
    (hv : lookupKV db.vaults e.ctx.vkey = some r)
    (hled : lookupKV db.withdrawLedger e.ctx.eventId = none) :
    lookupKV ((onWithdraw o e db).1).vaults e.ctx.vkey =
      some { r with totalAssets := r.totalAssets - e.assets } := by
  simp only [onWithdraw, ensureVaultExists, hv, insertWithdraw, insKV,
    hled, step_ok, step_err, updateVault, upsertAccount]
  simp only [stepCkptSnap_vaults]
  simp [lookupKV_updKV_self, hv]

theorem onTransfer_mint_vaultRow (o : Option Int) (e : TransferEv) (db : DB)
    (r : VaultRow)
    (hv : lookupKV db.vaults e.ctx.vkey = some r)
    (hled : lookupKV db.transferLedger e.ctx.eventId = none)
    (hfrom : e.fromAddr = zeroAddress) :
    lookupKV ((onTransfer o e db).1).vaults e.ctx.vkey =
      some { r with totalSupply := r.totalSupply + e.shares } := by
  simp only [onTransfer, insertTransfer, insKV, hled, step_ok, step_err, hfrom]
  simp [updateVault, ite_applyShareDelta_vaults, ite_applyShareDelta_vaults',
    hv, step_ok, step_err, stepCkptSnap_vaults, lookupKV_updKV_self]

theorem onTransfer_burn_vaultRow (o : Option Int) (e : TransferEv) (db : DB)
    (r : VaultRow)
    (hv : lookupKV db.vaults e.ctx.vkey = some r)
    (hled : lookupKV db.transferLedger e.ctx.eventId = none)
    (hfrom : e.fromAddr ≠ zeroAddress) (hto : e.toAddr = zeroAddress) :
    lookupKV ((onTransfer o e db).1).vaults e.ctx.vkey =
      some { r with totalSupply := r.totalSupply - e.shares } := by
  simp only [onTransfer, insertTransfer, insKV, hled, step_ok, step_err,
    hfrom, hto]
  simp [updateVault, applyShareDelta_vaults, hv, step_ok, step_err,
    stepCkptSnap_vaults, lookupKV_updKV_self, hfrom]

theorem onTransfer_regular_vaults (o : Option Int) (e : TransferEv) (db : DB)
    (hfrom : e.fromAddr ≠ zeroAddress) (hto : e.toAddr ≠ zeroAddress) :
    ((onTransfer o e db).1).vaults = db.vaults := by
  simp only [onTransfer, insertTransfer, insKV]
  cases hld : lookupKV db.transferLedger e.ctx.eventId with
  | some w => simp [step_err]
  | none => simp [step_ok, hfrom, hto, applyShareDelta_vaults]

/-! ## Concrete fixtures used by counterexamples and witnesses -/

/-- A fixed event context: chain 1, vault address 100, block 10,
timestamp 1000, transaction hash 555, transaction index 0, log index 3. -/
def exCtx : EvCtx := ⟨1, 100, 10, 1000, 555, 0, 3⟩

/-- A fixed vault row with totalAssets 50 and totalSupply 10. -/
def exVault : VaultRow :=
  { createdAtBlock := 1
    createdAtTimestamp := 2
    createdAtTransaction := 3
    asset := 7
    owner := 8
    curator := 9
    name := "v"
    symbol := "V"
    totalAssets := 50
    totalSupply := 10 }

/-- A store holding just the fixed vault row under key (1, 100). -/
def exDB : DB := { vaults := [(⟨1, 100⟩, exVault)] }

/-! ## Claim C1: the accounting transition table -/

/-- C1 counterexample: the claim's burn clause ("a Transfer whose recipient
is the zero address subtracts the transferred shares from totalSupply")
fails on the ill-formed transfer whose sender is ALSO the zero address:
the handler checks the mint condition first, so a Transfer(from=0, to=0,
shares=7) on a vault with totalSupply 10 yields totalSupply 17, not the 3
the clause demands. -/
theorem c1_both_zero_transfer_counterexample :
    (lookupKV ((onTransfer none ⟨exCtx, zeroAddress, zeroAddress, 7⟩ exDB).1).vaults
        ⟨1, 100⟩).map VaultRow.totalSupply = some 17 ∧
    (lookupKV ((onTransfer none ⟨exCtx, zeroAddress, zeroAddress, 7⟩ exDB).1).vaults
        ⟨1, 100⟩).map VaultRow.totalSupply ≠ some 3 := by
  decide

/-- C1 as amended: for every vault with an existing row and a
not-yet-recorded event coordinate, each accounting handler applies exactly
the specified transition to the vault row, leaving every other field of the
row unchanged (the record-update equalities say both at once):
AccrueInterest sets totalAssets to the event's newTotalAssets and
lastUpdateTimestamp to the block timestamp; Deposit adds the assets;
Withdraw subtracts them; a Transfer whose sender is the zero address —
including the ill-formed transfer whose recipient is also zero, which the
handler classifies as a mint — adds the shares to totalSupply; a Transfer
whose recipient is the zero address and whose sender is nonzero subtracts
the shares from totalSupply; a Transfer with neither endpoint zero leaves
the vault table entirely unchanged. -/
theorem c1_accounting_transition_table (o : Option Int) (db : DB) :
    (∀ (e : AccrueEv) (r : VaultRow),
        lookupKV db.vaults e.ctx.vkey = some r →
        lookupKV db.accrueLedger e.ctx.eventId = none →
        lookupKV ((onAccrueInterest o e db).1).vaults e.ctx.vkey =
          some { r with totalAssets := e.newTotalAssets
                        lastUpdateTimestamp := e.ctx.blockTimestamp }) ∧
    (∀ (e : DepositEv) (r : VaultRow),
        lookupKV db.vaults e.ctx.vkey = some r →
        lookupKV db.depositLedger e.ctx.eventId = none →
        lookupKV ((onDeposit o e db).1).vaults e.ctx.vkey =
          some { r with totalAssets := r.totalAssets + e.assets }) ∧
    (∀ (e : WithdrawEv) (r : VaultRow),
        lookupKV db.vaults e.ctx.vkey = some r →
        lookupKV db.withdrawLedger e.ctx.eventId = none →
        lookupKV ((onWithdraw o e db).1).vaults e.ctx.vkey =
          some { r with totalAssets := r.totalAssets - e.assets }) ∧
    (∀ (e : TransferEv) (r : VaultRow),
        e.fromAddr = zeroAddress →
        lookupKV db.vaults e.ctx.vkey = some r →
        lookupKV db.transferLedger e.ctx.eventId = none →
        lookupKV ((onTransfer o e db).1).vaults e.ctx.vkey =
          some { r with totalSupply := r.totalSupply + e.shares }) ∧
    (∀ (e : TransferEv) (r : VaultRow),
        e.fromAddr ≠ zeroAddress → e.toAddr = zeroAddress →
        lookupKV db.vaults e.ctx.vkey = some r →
        lookupKV db.transferLedger e.ctx.eventId = none →
        lookupKV ((onTransfer o e db).1).vaults e.ctx.vkey =
          some { r with totalSupply := r.totalSupply - e.shares }) ∧
    (∀ e : TransferEv,
        e.fromAddr ≠ zeroAddress → e.toAddr ≠ zeroAddress →
        ((onTransfer o e db).1).vaults = db.vaults) := by
  refine ⟨?_, ?_, ?_, ?_, ?_, ?_⟩
  · exact fun e r hv hled => onAccrueInterest_vaultRow o e db r hv hled
  · exact fun e r hv hled => onDeposit_vaultRow o e db r hv hled
  · exact fun e r hv hled => onWithdraw_vaultRow o e db r hv hled
  · exact fun e r hf hv hled => onTransfer_mint_vaultRow o e db r hv hled hf
  · exact fun e r hf ht hv hled => onTransfer_burn_vaultRow o e db r hv hled hf ht
  · exact fun e hf ht => onTransfer_regular_vaults o e db hf ht

/-- C1 witness: the six transition clauses evaluated on the concrete
fixture vault (totalAssets 50, totalSupply 10). -/
theorem c1_accounting_transition_table_witness :
    (lookupKV ((onAccrueInterest none ⟨exCtx, 50, 60, 1, 2⟩ exDB).1).vaults ⟨1, 100⟩ =
      some { exVault with totalAssets := 60, lastUpdateTimestamp := 1000 }) ∧
    (lookupKV ((onDeposit none ⟨exCtx, 5, 6, 100, 90⟩ exDB).1).vaults ⟨1, 100⟩ =
      some { exVault with totalAssets := 150 }) ∧
    (lookupKV ((onWithdraw none ⟨exCtx, 5, 6, 7, 40, 35⟩ exDB).1).vaults ⟨1, 100⟩ =
      some { exVault with totalAssets := 10 }) ∧
    (lookupKV ((onTransfer none ⟨exCtx, 0, 42, 50⟩ exDB).1).vaults ⟨1, 100⟩ =
      some { exVault with totalSupply := 60 }) ∧
    (lookupKV ((onTransfer none ⟨exCtx, 42, 0, 4⟩ exDB).1).vaults ⟨1, 100⟩ =
      some { exVault with totalSupply := 6 }) ∧
    (((onTransfer none ⟨exCtx, 42, 43, 4⟩ exDB).1).vaults = exDB.vaults) := by
  obtain ⟨h₁, h₂, h₃, h₄, h₅, h₆⟩ := c1_accounting_transition_table none exDB
  refine ⟨?_, ?_, ?_, ?_, ?_, ?_⟩
  · exact h₁ ⟨exCtx, 50, 60, 1, 2⟩ exVault (by decide) (by decide)
  · exact h₂ ⟨exCtx, 5, 6, 100, 90⟩ exVault (by decide) (by decide)
  · exact h₃ ⟨exCtx, 5, 6, 7, 40, 35⟩ exVault (by decide) (by decide)
  · exact h₄ ⟨exCtx, 0, 42, 50⟩ exVault (by decide) (by decide) (by decide)
  · exact h₅ ⟨exCtx, 42, 0, 4⟩ exVault (by decide) (by decide) (by decide) (by decide)
  · exact h₆ ⟨exCtx, 42, 43, 4⟩ (by decide) (by decide)

/-! ## Claim C4: the both-zero transfer -/

/-- C4 counterexample: a Transfer whose sender and recipient are both the
zero address is NOT a state no-op: on the fixture vault (totalSupply 10),
Transfer(from=0, to=0, shares=5) leaves totalSupply 15, not 10. -/
theorem c4_counterexample :
    (lookupKV ((onTransfer none ⟨exCtx, zeroAddress, zeroAddress, 5⟩ exDB).1).vaults
        ⟨1, 100⟩).map VaultRow.totalSupply = some 15 ∧
    (lookupKV ((onTransfer none ⟨exCtx, zeroAddress, zeroAddress, 5⟩ exDB).1).vaults
        ⟨1, 100⟩).map VaultRow.totalSupply ≠ some 10 := by
  decide

/-- C4 as amended: a Transfer with both endpoints equal to the zero address
is processed as a mint, because the handler tests the mint condition first:
the ledger row is still inserted and no depositor account is touched (both
share-delta calls are skipped), but the vault's totalSupply increases by
the transferred shares — it is not a logged no-op. -/
theorem c4_both_zero_transfer (o : Option Int) (e : TransferEv) (db : DB)
    (r : VaultRow)
    (hfrom : e.fromAddr = zeroAddress) (hto : e.toAddr = zeroAddress)
    (hv : lookupKV db.vaults e.ctx.vkey = some r)
    (hled : lookupKV db.transferLedger e.ctx.eventId = none) :
    lookupKV ((onTransfer o e db).1).vaults e.ctx.vkey =
      some { r with totalSupply := r.totalSupply + e.shares } ∧
    ((onTransfer o e db).1).accounts = db.accounts ∧
    lookupKV ((onTransfer o e db).1).transferLedger e.ctx.eventId =
      some { coord := e.ctx.coord
             fromAddr := e.fromAddr
             toAddr := e.toAddr
             shares := e.shares } := by
  refine ⟨onTransfer_mint_vaultRow o e db r hv hled hfrom, ?_, ?_⟩
  · simp only [onTransfer, insertTransfer, insKV, hled, step_ok, hfrom, hto]
    simp [updateVault, hv, step_ok, step_err, stepCkptSnap_accounts]
  · simp only [onTransfer, insertTransfer, insKV, hled, step_ok, hfrom, hto]
    simp [updateVault, hv, step_ok, step_err, stepCkptSnap_transferLedger,
      lookupKV_append, hled]

/-- C4 witness: the amended statement on the fixture vault with
Transfer(from=0, to=0, shares=5). -/
theorem c4_both_zero_transfer_witness :
    lookupKV ((onTransfer none ⟨exCtx, 0, 0, 5⟩ exDB).1).vaults ⟨1, 100⟩ =
      some { exVault with totalSupply := 15 } ∧
    ((onTransfer none ⟨exCtx, 0, 0, 5⟩ exDB).1).accounts = exDB.accounts ∧
    lookupKV ((onTransfer none ⟨exCtx, 0, 0, 5⟩ exDB).1).transferLedger
        ⟨1, 555, 3⟩ =
      some { coord := exCtx.coord, fromAddr := 0, toAddr := 0, shares := 5 } := by
  exact c4_both_zero_transfer none ⟨exCtx, 0, 0, 5⟩ exDB exVault
    (by decide) (by decide) (by decide) (by decide)

/-! ## Claim C5: the Transfer handler skips the backfill resolver -/

/-- C5: the Transfer handler never calls `ensureVaultExists`, so a mint
(Transfer from the zero address) for a vault with no row reaches the
`totalSupply` update against a nonexistent row and the handler fails with
a record-not-found error, leaving the vault table empty — while the
Deposit handler on the same empty store backfills and succeeds. This
evaluates the code at the claim's failing input; the claim (and spec §4.2)
says the backfill resolver runs first for every such event. -/
theorem c5_transfer_missing_backfill :
    (onTransfer none ⟨exCtx, zeroAddress, 42, 50⟩ ({} : DB)).2 =
      some PErr.recordNotFound ∧
    ((onTransfer none ⟨exCtx, zeroAddress, 42, 50⟩ ({} : DB)).1).vaults = [] ∧
    (onDeposit none ⟨exCtx, 5, 6, 100, 90⟩ ({} : DB)).2 = none ∧
    (lookupKV ((onDeposit none ⟨exCtx, 5, 6, 100, 90⟩ ({} : DB)).1).vaults
        ⟨1, 100⟩).isSome = true := by
  decide

/-! ## Claim C2: the backfill resolver's configuration source -/

/-- A sample successful external configuration read. -/
def exCfg : VaultConfig :=
  { asset := 55, owner := 1, curator := 2, performanceFee := 3,
    performanceFeeRecipient := 4, managementFee := 5,
    managementFeeRecipient := 6, maxRate := 7, receiveSharesGate := 8,
    sendSharesGate := 9, receiveAssetsGate := 11, sendAssetsGate := 12,
    adapters := [13], name := "n", symbol := "S", totalAssets := 500,
    totalSupply := 100 }

/-- C2 counterexample: `ensureVaultExists` never attempts the external
point-in-time reads. Even when the external read interface would succeed
(oracle `some exCfg` with owner 1), the code inserts the zero-fallback row
(owner 0), differing from the spec-described resolver
`ensureVaultExistsSpec`, which inserts the fully-populated row. -/
theorem c2_no_external_read_counterexample :
    (lookupKV (ensureVaultExists exCtx ({} : DB)).vaults ⟨1, 100⟩).map
        VaultRow.owner = some zeroAddress ∧
    (lookupKV (ensureVaultExistsSpec (some exCfg) exCtx ({} : DB)).vaults
        ⟨1, 100⟩).map VaultRow.owner = some 1 ∧
    lookupKV (ensureVaultExists exCtx ({} : DB)).vaults ⟨1, 100⟩ ≠
      lookupKV (ensureVaultExistsSpec (some exCfg) exCtx ({} : DB)).vaults
        ⟨1, 100⟩ := by
  decide

/-- C2 as amended: the backfill resolver inserts the minimally-populated
zero-fallback row directly, never consulting the external read interface;
after it runs the vault row always exists (never partially initialized: a
previously absent key maps to exactly `minimalVaultRow`, whose unlisted
columns carry the schema defaults), an existing row is left untouched, and
the code agrees with the spec-described resolver exactly in the
failed-read case. -/
theorem c2_backfill_zero_fallback (c : EvCtx) (db : DB) :
    (lookupKV (ensureVaultExists c db).vaults c.vkey).isSome = true ∧
    (lookupKV db.vaults c.vkey = none →
      lookupKV (ensureVaultExists c db).vaults c.vkey =
        some (minimalVaultRow c.blockNumber c.blockTimestamp c.transactionHash)) ∧
    (∀ r : VaultRow, lookupKV db.vaults c.vkey = some r →
      ensureVaultExists c db = db) ∧
    ensureVaultExistsSpec none c db = ensureVaultExists c db := by
  refine ⟨?_, ?_, ?_, ?_⟩
  · cases h : lookupKV db.vaults c.vkey with
    | some r => simp [ensureVaultExists, h]
    | none => simp [ensureVaultExists, h, lookupKV_append]
  · intro h
    simp [ensureVaultExists, h, lookupKV_append]
  · intro r h
    simp [ensureVaultExists, h]
  · cases h : lookupKV db.vaults c.vkey with
    | some r => simp [ensureVaultExists, ensureVaultExistsSpec, h]
    | none => simp [ensureVaultExists, ensureVaultExistsSpec, h]

/-- C2 witness: the zero-fallback row materialized for the fixture context
on an empty store. -/
theorem c2_backfill_zero_fallback_witness :
    (lookupKV (ensureVaultExists exCtx ({} : DB)).vaults ⟨1, 100⟩).isSome = true ∧
    lookupKV (ensureVaultExists exCtx ({} : DB)).vaults ⟨1, 100⟩ =
      some (minimalVaultRow 10 1000 555) := by
  obtain ⟨h₁, h₂, -, -⟩ := c2_backfill_zero_fallback exCtx ({} : DB)
  exact ⟨h₁, h₂ (by decide)⟩

/-! ## Claim C3: replaying one event coordinate is idempotent -/

/-- C3: processing a fresh deposit event succeeds, and processing the same
event coordinate a second time returns the state of the first run
unchanged while flagging the unique-key conflict on the ledger insert: no
duplicate ledger row is created and neither the vault's totalAssets
increment nor the depositor-account accumulators are applied a second time
(the conflict aborts the handler before any second-run write — the
backfill check before it performs no write because the vault row already
exists). Final projected state and ledger rows after two deliveries equal
those after one. -/
theorem c3_deposit_replay (o : Option Int) (e : DepositEv) (db : DB)
    (r : VaultRow)
    (hv : lookupKV db.vaults e.ctx.vkey = some r)
    (hled : lookupKV db.depositLedger e.ctx.eventId = none)
    (hck : lookupKV db.vaultCkpts (CkptId.base e.ctx.eventId) = none)
    (hsnap : lookupKV db.snapshots (CkptId.snap e.ctx.eventId) = none) :
    (onDeposit o e db).2 = none ∧
    onDeposit o e ((onDeposit o e db).1) =
      ((onDeposit o e db).1, some PErr.uniqueConflict) := by
  have hv' : lookupKV db.vaults ⟨e.ctx.chainId, e.ctx.vaultAddress⟩ = some r := by
    simpa [EvCtx.vkey] using hv
  have hled' : lookupKV db.depositLedger
      ⟨e.ctx.chainId, e.ctx.transactionHash, e.ctx.logIndex⟩ = none := by
    simpa [EvCtx.eventId] using hled
  have hck' : lookupKV db.vaultCkpts
      (CkptId.base ⟨e.ctx.chainId, e.ctx.transactionHash, e.ctx.logIndex⟩) = none := by
    simpa [EvCtx.eventId] using hck
  have hsnap' : lookupKV db.snapshots
      (CkptId.snap ⟨e.ctx.chainId, e.ctx.transactionHash, e.ctx.logIndex⟩) = none := by
    simpa [EvCtx.eventId] using hsnap
  constructor
  · simp only [onDeposit, ensureVaultExists, EvCtx.vkey, EvCtx.eventId, hv',
      insertDeposit, insKV, hled', step_ok, updateVault, upsertAccount]
    simp [handleAccountingEvent, vaultGetCurrentState, insKV, hck', step_ok,
      createSnapshot, hsnap', lookupKV_updKV_self, hv', lookupKV_append]
  · simp only [onDeposit, ensureVaultExists, EvCtx.vkey, EvCtx.eventId, hv',
      insertDeposit, insKV, hled', step_ok, updateVault, upsertAccount]
    simp [handleAccountingEvent, vaultGetCurrentState, insKV, hck', step_ok,
      step_err, createSnapshot, hsnap', hled', lookupKV_updKV_self, hv',
      lookupKV_append]

/-- C3 witness: the deposit of 100 assets on the fixture vault, delivered
twice. -/
theorem c3_deposit_replay_witness :
    (onDeposit none ⟨exCtx, 5, 6, 100, 90⟩ exDB).2 = none ∧
    onDeposit none ⟨exCtx, 5, 6, 100, 90⟩
        ((onDeposit none ⟨exCtx, 5, 6, 100, 90⟩ exDB).1) =
      ((onDeposit none ⟨exCtx, 5, 6, 100, 90⟩ exDB).1,
        some PErr.uniqueConflict) := by
  exact c3_deposit_replay none ⟨exCtx, 5, 6, 100, 90⟩ exDB exVault
    (by decide) (by decide) (by decide) (by decide)

/-! ## Claim C10: regular transfers conserve the vault's share balances -/

/-- Semantic share balance of one account key (absent row reads as zero). -/
def balOf (db : DB) (k : AKey) : Int :=
  ((lookupKV db.accounts k).map AccountRow.sharesBalance).getD 0

/-- Sum of `sharesBalance` over the depositor accounts of one vault. -/
def vaultSharesSum (db : DB) (chainId vaultAddress : Nat) : Int :=
  sumKeyBy (fun k : AKey => k.chainId == chainId && k.vaultAddress == vaultAddress)
    AccountRow.sharesBalance db.accounts

theorem applyShareDelta_sum (c : EvCtx) (a : Nat) (d : Int) (db : DB)
    (ha : a ≠ zeroAddress) :
    vaultSharesSum (applyShareDelta c a d db) c.chainId c.vaultAddress =
      vaultSharesSum db c.chainId c.vaultAddress + d := by
  unfold applyShareDelta upsertAccount vaultSharesSum
  rw [if_neg ha]
  exact sumKeyBy_upsertKV _ _ db.accounts _ _ _ (by simp) (fun w => by simp)

theorem applyShareDelta_balOf_self (c : EvCtx) (a : Nat) (d : Int) (db : DB)
    (ha : a ≠ zeroAddress) :
    balOf (applyShareDelta c a d db) ⟨c.chainId, c.vaultAddress, a⟩ =
      balOf db ⟨c.chainId, c.vaultAddress, a⟩ + d := by
  unfold applyShareDelta upsertAccount balOf
  rw [if_neg ha]
  rw [lookupKV_upsertKV_self]
  cases h : lookupKV db.accounts ⟨c.chainId, c.vaultAddress, a⟩ <;> simp [h]

theorem applyShareDelta_balOf_ne (c : EvCtx) (a : Nat) (d : Int) (db : DB)
    (k : AKey) (hk : k ≠ ⟨c.chainId, c.vaultAddress, a⟩) :
    balOf (applyShareDelta c a d db) k = balOf db k := by
  unfold applyShareDelta upsertAccount balOf
  split
  · rfl
  · rw [lookupKV_upsertKV_ne _ _ _ _ _ hk]

theorem applyShareDelta_isSome_self (c : EvCtx) (a : Nat) (d : Int) (db : DB)
    (ha : a ≠ zeroAddress) :
    (lookupKV (applyShareDelta c a d db).accounts
        ⟨c.chainId, c.vaultAddress, a⟩).isSome = true := by
  unfold applyShareDelta upsertAccount
  rw [if_neg ha]
  simp [lookupKV_upsertKV_self]

/-- C10: a Transfer with two nonzero endpoints preserves the sum of
`sharesBalance` over the vault's depositor accounts and leaves the vault
table (totalSupply, totalAssets, lastUpdateTimestamp included) unchanged;
the recipient has a row afterwards (a fresh one starts at the delta, which
the zero-defaulted `balOf` equations capture), and for distinct endpoints
the sender's balance drops by the transferred shares while the recipient's
rises by the same amount. -/
theorem c10_regular_transfer (o : Option Int) (e : TransferEv) (db : DB)
    (hfrom : e.fromAddr ≠ zeroAddress) (hto : e.toAddr ≠ zeroAddress)
    (hled : lookupKV db.transferLedger e.ctx.eventId = none) :
    vaultSharesSum ((onTransfer o e db).1) e.ctx.chainId e.ctx.vaultAddress =
      vaultSharesSum db e.ctx.chainId e.ctx.vaultAddress ∧
    ((onTransfer o e db).1).vaults = db.vaults ∧
    (lookupKV ((onTransfer o e db).1).accounts
        ⟨e.ctx.chainId, e.ctx.vaultAddress, e.toAddr⟩).isSome = true ∧
    (e.fromAddr ≠ e.toAddr →
      balOf ((onTransfer o e db).1)
          ⟨e.ctx.chainId, e.ctx.vaultAddress, e.fromAddr⟩ =
        balOf db ⟨e.ctx.chainId, e.ctx.vaultAddress, e.fromAddr⟩ - e.shares ∧
      balOf ((onTransfer o e db).1)
          ⟨e.ctx.chainId, e.ctx.vaultAddress, e.toAddr⟩ =
        balOf db ⟨e.ctx.chainId, e.ctx.vaultAddress, e.toAddr⟩ + e.shares) := by
  simp only [onTransfer, insertTransfer, insKV, hled, step_ok, hfrom, hto,
    ne_eq, not_false_eq_true, ite_true, ite_false, if_true, if_false]
  refine ⟨?_, ?_, ?_, ?_⟩
  · rw [applyShareDelta_sum _ _ _ _ hto, applyShareDelta_sum _ _ _ _ hfrom]
    simp [vaultSharesSum]
  · simp [applyShareDelta_vaults]
  · exact applyShareDelta_isSome_self _ _ _ _ hto
  · intro hft
    have hk₁ : (⟨e.ctx.chainId, e.ctx.vaultAddress, e.fromAddr⟩ : AKey) ≠
        ⟨e.ctx.chainId, e.ctx.vaultAddress, e.toAddr⟩ := by
      simp [AKey.mk.injEq, hft]
    constructor
    · rw [applyShareDelta_balOf_ne _ _ _ _ _ hk₁,
        applyShareDelta_balOf_self _ _ _ _ hfrom]
      simp [balOf]
      ring
    · rw [applyShareDelta_balOf_self _ _ _ _ hto,
        applyShareDelta_balOf_ne _ _ _ _ _ (Ne.symm hk₁)]
      simp [balOf]

/-- C10 witness: Transfer(from=42, to=43, shares=4) on the fixture store. -/
theorem c10_regular_transfer_witness :
    vaultSharesSum ((onTransfer none ⟨exCtx, 42, 43, 4⟩ exDB).1) 1 100 =
      vaultSharesSum exDB 1 100 ∧
    ((onTransfer none ⟨exCtx, 42, 43, 4⟩ exDB).1).vaults = exDB.vaults ∧
    balOf ((onTransfer none ⟨exCtx, 42, 43, 4⟩ exDB).1) ⟨1, 100, 42⟩ =
      balOf exDB ⟨1, 100, 42⟩ - 4 ∧
    balOf ((onTransfer none ⟨exCtx, 42, 43, 4⟩ exDB).1) ⟨1, 100, 43⟩ =
      balOf exDB ⟨1, 100, 43⟩ + 4 := by
  obtain ⟨h₁, h₂, -, h₄⟩ := c10_regular_transfer none ⟨exCtx, 42, 43, 4⟩ exDB
    (by decide) (by decide) (by decide)
  obtain ⟨h₅, h₆⟩ := h₄ (by decide)
  exact ⟨h₁, h₂, h₅, h₆⟩

/-! ## Claim C7: cap changes replace one field -/

theorem handleCapOrAllocationChange_accounts (a₁ a₂ a₃ : Nat) (k : CkptId)
    (bn ts : Int) (th li : Nat) (d : Option Nat) (db : DB) :
    ((handleCapOrAllocationChange a₁ a₂ a₃ k bn ts th li d db).1).accounts =
      db.accounts := by
  simp only [handleCapOrAllocationChange]
  split <;> rfl

/-- The cap-checkpoint-then-snapshot tail shared by the cap and allocation
handlers leaves the identifier table untouched. -/
theorem stepCapSnap_idents (a₁ a₂ a₃ : Nat) (k₁ : CkptId) (bn ts : Int)
    (th li : Nat) (d : Option Nat) (o : Option Int) (k₂ : CkptId)
    (ty : String) (db : DB) :
    ((step (handleCapOrAllocationChange a₁ a₂ a₃ k₁ bn ts th li d db)
        (fun db' => createSnapshot o a₁ a₂ k₂ bn ts th li ty db')).1).idents =
      db.idents := by
  rcases h : handleCapOrAllocationChange a₁ a₂ a₃ k₁ bn ts th li d db with ⟨db', err⟩
  have hv : db'.idents = db.idents := by
    have := handleCapOrAllocationChange_idents a₁ a₂ a₃ k₁ bn ts th li d db
    rw [h] at this
    exact this
  cases err with
  | none => simp [step, createSnapshot_idents, hv]
  | some e => simpa [step] using hv

theorem onIncreaseAbsoluteCap_idents (o : Option Int) (e : CapEv) (db : DB)
    (hled : lookupKV db.absCapLedger e.ctx.eventId = none) :
    ((onIncreaseAbsoluteCap o e db).1).idents =
      upsertKV db.idents ⟨e.ctx.chainId, e.ctx.vaultAddress, e.id⟩
        { absoluteCap := e.newCap, relativeCap := 0, allocation := 0 }
        (fun r => { r with absoluteCap := e.newCap }) := by
  simp only [onIncreaseAbsoluteCap, insertAbsCap, insKV, hled, step_ok,
    upsertIdent]
  simp [stepCapSnap_idents]

theorem onDecreaseAbsoluteCap_idents (o : Option Int) (e : CapEv) (db : DB)
    (hled : lookupKV db.absCapLedger e.ctx.eventId = none) :
    ((onDecreaseAbsoluteCap o e db).1).idents =
      upsertKV db.idents ⟨e.ctx.chainId, e.ctx.vaultAddress, e.id⟩
        { absoluteCap := e.newCap, relativeCap := 0, allocation := 0 }
        (fun r => { r with absoluteCap := e.newCap }) := by
  simp only [onDecreaseAbsoluteCap, insertAbsCap, insKV, hled, step_ok,
    upsertIdent]
  simp [stepCapSnap_idents]

theorem onIncreaseRelativeCap_idents (o : Option Int) (e : CapEv) (db : DB)
    (hled : lookupKV db.relCapLedger e.ctx.eventId = none) :
    ((onIncreaseRelativeCap o e db).1).idents =
      upsertKV db.idents ⟨e.ctx.chainId, e.ctx.vaultAddress, e.id⟩
        { absoluteCap := 0, relativeCap := e.newCap, allocation := 0 }
        (fun r => { r with relativeCap := e.newCap }) := by
  simp only [onIncreaseRelativeCap, insertRelCap, insKV, hled, step_ok,
    upsertIdent]
  simp [stepCapSnap_idents]

theorem onDecreaseRelativeCap_idents (o : Option Int) (e : CapEv) (db : DB)
    (hled : lookupKV db.relCapLedger e.ctx.eventId = none) :
    ((onDecreaseRelativeCap o e db).1).idents =
      upsertKV db.idents ⟨e.ctx.chainId, e.ctx.vaultAddress, e.id⟩
        { absoluteCap := 0, relativeCap := e.newCap, allocation := 0 }
        (fun r => { r with relativeCap := e.newCap }) := by
  simp only [onDecreaseRelativeCap, insertRelCap, insKV, hled, step_ok,
    upsertIdent]
  simp [stepCapSnap_idents]

/-- C7: each of the four cap-change handlers replaces only the cap field
named by the event kind for the (vault, identifier) pair: an existing row
keeps its other cap field and its allocation (the record-update branch of
the match), a fresh row initializes the untouched fields to zero, and
every other identifier row is unchanged. -/
theorem c7_cap_change_one_field (o : Option Int) :
    (∀ (e : CapEv) (db : DB),
        lookupKV db.absCapLedger e.ctx.eventId = none →
        lookupKV ((onIncreaseAbsoluteCap o e db).1).idents
            ⟨e.ctx.chainId, e.ctx.vaultAddress, e.id⟩ =
          some (match lookupKV db.idents ⟨e.ctx.chainId, e.ctx.vaultAddress, e.id⟩ with
            | some r => { r with absoluteCap := e.newCap }
            | none => { absoluteCap := e.newCap, relativeCap := 0, allocation := 0 }) ∧
        ∀ k : IKey, k ≠ ⟨e.ctx.chainId, e.ctx.vaultAddress, e.id⟩ →
          lookupKV ((onIncreaseAbsoluteCap o e db).1).idents k =
            lookupKV db.idents k) ∧
    (∀ (e : CapEv) (db : DB),
        lookupKV db.absCapLedger e.ctx.eventId = none →
        lookupKV ((onDecreaseAbsoluteCap o e db).1).idents
            ⟨e.ctx.chainId, e.ctx.vaultAddress, e.id⟩ =
          some (match lookupKV db.idents ⟨e.ctx.chainId, e.ctx.vaultAddress, e.id⟩ with
            | some r => { r with absoluteCap := e.newCap }
            | none => { absoluteCap := e.newCap, relativeCap := 0, allocation := 0 }) ∧
        ∀ k : IKey, k ≠ ⟨e.ctx.chainId, e.ctx.vaultAddress, e.id⟩ →
          lookupKV ((onDecreaseAbsoluteCap o e db).1).idents k =
            lookupKV db.idents k) ∧
    (∀ (e : CapEv) (db : DB),
        lookupKV db.relCapLedger e.ctx.eventId = none →
        lookupKV ((onIncreaseRelativeCap o e db).1).idents
            ⟨e.ctx.chainId, e.ctx.vaultAddress, e.id⟩ =
          some (match lookupKV db.idents ⟨e.ctx.chainId, e.ctx.vaultAddress, e.id⟩ with
            | some r => { r with relativeCap := e.newCap }
            | none => { absoluteCap := 0, relativeCap := e.newCap, allocation := 0 }) ∧
        ∀ k : IKey, k ≠ ⟨e.ctx.chainId, e.ctx.vaultAddress, e.id⟩ →
          lookupKV ((onIncreaseRelativeCap o e db).1).idents k =
            lookupKV db.idents k) ∧
    (∀ (e : CapEv) (db : DB),
        lookupKV db.relCapLedger e.ctx.eventId = none →
        lookupKV ((onDecreaseRelativeCap o e db).1).idents
            ⟨e.ctx.chainId, e.ctx.vaultAddress, e.id⟩ =
          some (match lookupKV db.idents ⟨e.ctx.chainId, e.ctx.vaultAddress, e.id⟩ with
            | some r => { r with relativeCap := e.newCap }
            | none => { absoluteCap := 0, relativeCap := e.newCap, allocation := 0 }) ∧
        ∀ k : IKey, k ≠ ⟨e.ctx.chainId, e.ctx.vaultAddress, e.id⟩ →
          lookupKV ((onDecreaseRelativeCap o e db).1).idents k =
            lookupKV db.idents k) := by
  refine ⟨?_, ?_, ?_, ?_⟩ <;> intro e db hled
  · rw [onIncreaseAbsoluteCap_idents o e db hled]
    constructor
    · rw [lookupKV_upsertKV_self]
      cases h : lookupKV db.idents ⟨e.ctx.chainId, e.ctx.vaultAddress, e.id⟩ <;> simp [h]
    · intro k hk
      exact lookupKV_upsertKV_ne _ _ _ _ _ hk
  · rw [onDecreaseAbsoluteCap_idents o e db hled]
    constructor
    · rw [lookupKV_upsertKV_self]
      cases h : lookupKV db.idents ⟨e.ctx.chainId, e.ctx.vaultAddress, e.id⟩ <;> simp [h]
    · intro k hk
      exact lookupKV_upsertKV_ne _ _ _ _ _ hk
  · rw [onIncreaseRelativeCap_idents o e db hled]
    constructor
    · rw [lookupKV_upsertKV_self]
      cases h : lookupKV db.idents ⟨e.ctx.chainId, e.ctx.vaultAddress, e.id⟩ <;> simp [h]
    · intro k hk
      exact lookupKV_upsertKV_ne _ _ _ _ _ hk
  · rw [onDecreaseRelativeCap_idents o e db hled]
    constructor
    · rw [lookupKV_upsertKV_self]
      cases h : lookupKV db.idents ⟨e.ctx.chainId, e.ctx.vaultAddress, e.id⟩ <;> simp [h]
    · intro k hk
      exact lookupKV_upsertKV_ne _ _ _ _ _ hk

/-- C7 witness: IncreaseAbsoluteCap(identifier=77, newCap=1000) on a fresh
identifier yields state (absoluteCap 1000, relativeCap 0, allocation 0)
and leaves a different identifier untouched. -/
theorem c7_cap_change_one_field_witness :
    lookupKV ((onIncreaseAbsoluteCap none ⟨exCtx, 5, 77, 9, 1000⟩ exDB).1).idents
        ⟨1, 100, 77⟩ =
      some { absoluteCap := 1000, relativeCap := 0, allocation := 0 } ∧
    lookupKV ((onIncreaseAbsoluteCap none ⟨exCtx, 5, 77, 9, 1000⟩ exDB).1).idents
        ⟨1, 100, 78⟩ = lookupKV exDB.idents ⟨1, 100, 78⟩ := by
  obtain ⟨h₁, -, -, -⟩ := c7_cap_change_one_field none
  obtain ⟨ha, hb⟩ := h₁ ⟨exCtx, 5, 77, 9, 1000⟩ exDB (by decide)
  exact ⟨ha, hb ⟨1, 100, 78⟩ (by decide)⟩

/-! ## Claims C6 and C8: the per-identifier allocation loop -/

theorem lookupKV_appendList {κ α : Type} [DecidableEq κ]
    (l₁ l₂ : List (κ × α)) (k : κ) :
    lookupKV (l₁ ++ l₂) k =
      match lookupKV l₁ k with
      | some w => some w
      | none => lookupKV l₂ k := by
  induction l₁ with
  | nil => simp [lookupKV]
  | cons h t ih =>
    obtain ⟨k', v⟩ := h
    by_cases hk : k' = k <;> simp [lookupKV, hk, ih]

/-- The identifier state the allocation upsert leaves for one key:
an existing row accumulates the signed delta, a new row starts at the
delta with zero caps. -/
def allocUpsertState (change : Int) (t : List (IKey × IdentRow)) (k : IKey) :
    IdentRow :=
  match lookupKV t k with
  | some r => { r with allocation := r.allocation + change }
  | none => { absoluteCap := 0, relativeCap := 0, allocation := change }

/-- The identifier-table effect of the per-identifier loop. -/
def allocFold (c : EvCtx) (change : Int) :
    List Nat → List (IKey × IdentRow) → List (IKey × IdentRow)
  | [], t => t
  | identifierHash :: rest, t =>
    allocFold c change rest
      (upsertKV t ⟨c.chainId, c.vaultAddress, identifierHash⟩
        { absoluteCap := 0, relativeCap := 0, allocation := change }
        (fun r => { r with allocation := r.allocation + change }))

/-- The `capCheckpoint` row written for one identifier and state. -/
def capRowOf (c : EvCtx) (identifierHash : Nat) (d : Option Nat)
    (s : IdentRow) : CapCkptRow :=
  { chainId := c.chainId
    vaultAddress := c.vaultAddress
    identifierHash := identifierHash
    identifierData := d
    blockNumber := c.blockNumber
    blockTimestamp := c.blockTimestamp
    transactionHash := c.transactionHash
    logIndex := c.logIndex
    absoluteCap := s.absoluteCap
    relativeCap := s.relativeCap
    allocation := s.allocation }

/-- The checkpoint rows the per-identifier loop appends, in order. -/
def allocCkptRows (c : EvCtx) (change : Int) :
    List Nat → Nat → List (IKey × IdentRow) → List (CkptId × CapCkptRow)
  | [], _, _ => []
  | identifierHash :: rest, i, t =>
    (CkptId.sub c.eventId i,
      capRowOf c identifierHash none
        (allocUpsertState change t ⟨c.chainId, c.vaultAddress, identifierHash⟩)) ::
    allocCkptRows c change rest (i + 1)
      (upsertKV t ⟨c.chainId, c.vaultAddress, identifierHash⟩
        { absoluteCap := 0, relativeCap := 0, allocation := change }
        (fun r => { r with allocation := r.allocation + change }))

theorem allocLoop_cons (c : EvCtx) (change : Int) (hd : Nat) (rest : List Nat)
    (i : Nat) (db : DB)
    (hck : lookupKV db.capCkpts (CkptId.sub c.eventId i) = none) :
    allocLoop c change (hd :: rest) i db =
      allocLoop c change rest (i + 1)
        { db with
            idents := upsertKV db.idents ⟨c.chainId, c.vaultAddress, hd⟩
              { absoluteCap := 0, relativeCap := 0, allocation := change }
              (fun r => { r with allocation := r.allocation + change })
            capCkpts := db.capCkpts ++
              [(CkptId.sub c.eventId i,
                capRowOf c hd none
                  (allocUpsertState change db.idents
                    ⟨c.chainId, c.vaultAddress, hd⟩))] } := by
  simp only [allocLoop, upsertIdent, handleCapOrAllocationChange,
    capGetCurrentState, insKV, lookupKV_upsertKV_self, hck, capRowOf,
    allocUpsertState]
  cases h : lookupKV db.idents ⟨c.chainId, c.vaultAddress, hd⟩ <;> simp [h, hck]

theorem allocLoop_spec (c : EvCtx) (change : Int) :
    ∀ (ids : List Nat) (i : Nat) (db : DB),
      (∀ j, j < ids.length →
        lookupKV db.capCkpts (CkptId.sub c.eventId (i + j)) = none) →
      (allocLoop c change ids i db).2 = none ∧
      ((allocLoop c change ids i db).1).idents =
        allocFold c change ids db.idents ∧
      ((allocLoop c change ids i db).1).vaults = db.vaults ∧
      ((allocLoop c change ids i db).1).accounts = db.accounts ∧
      ((allocLoop c change ids i db).1).capCkpts =
        db.capCkpts ++ allocCkptRows c change ids i db.idents := by
  intro ids
  induction ids with
  | nil =>
    intro i db H
    simp [allocLoop, allocFold, allocCkptRows]
  | cons hd rest ih =>
    intro i db H
    have hck0 : lookupKV db.capCkpts (CkptId.sub c.eventId i) = none := by
      have h0 := H 0 (by simp)
      simpa using h0
    rw [allocLoop_cons c change hd rest i db hck0]
    generalize hG :
      ({ db with
          idents := upsertKV db.idents ⟨c.chainId, c.vaultAddress, hd⟩
            { absoluteCap := 0, relativeCap := 0, allocation := change }
            (fun r => { r with allocation := r.allocation + change })
          capCkpts := db.capCkpts ++
            [(CkptId.sub c.eventId i,
              capRowOf c hd none
                (allocUpsertState change db.idents
                  ⟨c.chainId, c.vaultAddress, hd⟩))] } : DB) = db₂
    have hGi : db₂.idents = upsertKV db.idents ⟨c.chainId, c.vaultAddress, hd⟩
        { absoluteCap := 0, relativeCap := 0, allocation := change }
        (fun r => { r with allocation := r.allocation + change }) := by
      rw [← hG]
    have hGc : db₂.capCkpts = db.capCkpts ++
        [(CkptId.sub c.eventId i,
          capRowOf c hd none
            (allocUpsertState change db.idents ⟨c.chainId, c.vaultAddress, hd⟩))] := by
      rw [← hG]
    have hGv : db₂.vaults = db.vaults := by rw [← hG]
    have hGa : db₂.accounts = db.accounts := by rw [← hG]
    have Hrest : ∀ j, j < rest.length →
        lookupKV db₂.capCkpts (CkptId.sub c.eventId (i + 1 + j)) = none := by
      intro j hj
      rw [hGc, lookupKV_appendList]
      have hj' : j + 1 < (hd :: rest).length := by
        simpa using Nat.succ_lt_succ hj
      have h1 := H (j + 1) hj'
      have e1 : i + (j + 1) = i + 1 + j := by omega
      rw [e1] at h1
      rw [h1]
      have hne : CkptId.sub c.eventId i ≠ CkptId.sub c.eventId (i + 1 + j) := by
        simp only [ne_eq, CkptId.sub.injEq, not_and]
        intro _
        omega
      simp [lookupKV, hne]
    obtain ⟨ha, hb, hc', hd'', he⟩ := ih (i + 1) db₂ Hrest
    refine ⟨ha, ?_, ?_, ?_, ?_⟩
    · rw [hb, hGi]
      rfl
    · rw [hc', hGv]
    · rw [hd'', hGa]
    · rw [he, hGc, hGi, List.append_assoc]
      rfl

theorem allocFold_notmem (c : EvCtx) (change : Int) :
    ∀ (ids : List Nat) (t : List (IKey × IdentRow)) (k : IKey),
      (∀ id ∈ ids, k ≠ ⟨c.chainId, c.vaultAddress, id⟩) →
      lookupKV (allocFold c change ids t) k = lookupKV t k := by
  intro ids
  induction ids with
  | nil => intro t k _; rfl
  | cons hd rest ih =>
    intro t k h
    simp only [allocFold]
    rw [ih _ k (fun id hid => h id (List.mem_cons_of_mem hd hid))]
    exact lookupKV_upsertKV_ne _ _ _ _ _ (h hd (List.mem_cons_self hd rest))

theorem allocFold_mem (c : EvCtx) (change : Int) :
    ∀ (ids : List Nat) (t : List (IKey × IdentRow)) (id : Nat),
      ids.Nodup → id ∈ ids →
      lookupKV (allocFold c change ids t) ⟨c.chainId, c.vaultAddress, id⟩ =
        some (allocUpsertState change t ⟨c.chainId, c.vaultAddress, id⟩) := by
  intro ids
  induction ids with
  | nil => intro t id _ h; cases h
  | cons hd rest ih =>
    intro t id hnd hmem
    simp only [allocFold]
    rcases List.mem_cons.mp hmem with heq | hmem'
    · subst heq
      have hng : id ∉ rest := (List.nodup_cons.mp hnd).1
      have hnomem : ∀ id' ∈ rest,
          (⟨c.chainId, c.vaultAddress, id⟩ : IKey) ≠
            ⟨c.chainId, c.vaultAddress, id'⟩ := by
        intro id' hid' hh
        apply hng
        have hx : id = id' := congrArg IKey.identifierHash hh
        rw [hx]
        exact hid'
      rw [allocFold_notmem c change rest _ _ hnomem, lookupKV_upsertKV_self]
      cases h : lookupKV t ⟨c.chainId, c.vaultAddress, id⟩ <;>
        simp [allocUpsertState, h]
    · have hnd' := (List.nodup_cons.mp hnd).2
      have hkne : (⟨c.chainId, c.vaultAddress, id⟩ : IKey) ≠
          ⟨c.chainId, c.vaultAddress, hd⟩ := by
        intro hh
        apply (List.nodup_cons.mp hnd).1
        have hx : id = hd := congrArg IKey.identifierHash hh
        rw [← hx]
        exact hmem'
      rw [ih _ id hnd' hmem']
      unfold allocUpsertState
      rw [lookupKV_upsertKV_ne _ _ _ _ _ hkne]

theorem allocCkptRows_lookup (c : EvCtx) (change : Int) :
    ∀ (ids : List Nat) (i : Nat) (t : List (IKey × IdentRow)), ids.Nodup →
      ∀ (j : Nat) (hj : j < ids.length),
        lookupKV (allocCkptRows c change ids i t)
            (CkptId.sub c.eventId (i + j)) =
          some (capRowOf c (ids.get ⟨j, hj⟩) none
            (allocUpsertState change t
              ⟨c.chainId, c.vaultAddress, ids.get ⟨j, hj⟩⟩)) := by
  intro ids
  induction ids with
  | nil =>
    intro i t _ j hj
    exact absurd hj (by simp)
  | cons hd rest ih =>
    intro i t hnd j hj
    simp only [allocCkptRows]
    cases j with
    | zero => simp [lookupKV]
    | succ j' =>
      have hj' : j' < rest.length := Nat.lt_of_succ_lt_succ (by simpa using hj)
      have hkey : CkptId.sub c.eventId i ≠
          CkptId.sub c.eventId (i + (j' + 1)) := by
        simp only [ne_eq, CkptId.sub.injEq, not_and]
        intro _
        omega
      rw [lookupKV, if_neg hkey]
      have e1 : i + (j' + 1) = (i + 1) + j' := by omega
      rw [e1, ih (i + 1) _ (List.nodup_cons.mp hnd).2 j' hj']
      have hmem : rest.get ⟨j', hj'⟩ ∈ rest := List.get_mem _ _ _
      have hkne : (⟨c.chainId, c.vaultAddress, rest.get ⟨j', hj'⟩⟩ : IKey) ≠
          ⟨c.chainId, c.vaultAddress, hd⟩ := by
        intro hh
        apply (List.nodup_cons.mp hnd).1
        have hx : rest.get ⟨j', hj'⟩ = hd := congrArg IKey.identifierHash hh
        rw [← hx]
        exact hmem
      have hstate : allocUpsertState change
          (upsertKV t ⟨c.chainId, c.vaultAddress, hd⟩
            { absoluteCap := 0, relativeCap := 0, allocation := change }
            (fun r => { r with allocation := r.allocation + change }))
          ⟨c.chainId, c.vaultAddress, rest.get ⟨j', hj'⟩⟩ =
          allocUpsertState change t
            ⟨c.chainId, c.vaultAddress, rest.get ⟨j', hj'⟩⟩ := by
        unfold allocUpsertState
        rw [lookupKV_upsertKV_ne _ _ _ _ _ hkne]
      rw [hstate]
      rfl

theorem ensureVaultExists_idents (c : EvCtx) (db : DB) :
    (ensureVaultExists c db).idents = db.idents := by
  unfold ensureVaultExists
  split <;> rfl

theorem ensureVaultExists_capCkpts (c : EvCtx) (db : DB) :
    (ensureVaultExists c db).capCkpts = db.capCkpts := by
  unfold ensureVaultExists
  split <;> rfl

theorem ensureVaultExists_forceDeallocateLedger (c : EvCtx) (db : DB) :
    (ensureVaultExists c db).forceDeallocateLedger =
      db.forceDeallocateLedger := by
  unfold ensureVaultExists
  split <;> rfl

theorem stepAllocSnap_spec (c : EvCtx) (change : Int) (ids : List Nat)
    (o : Option Int) (k₂ : CkptId) (ty : String) (db : DB)
    (H : ∀ j, j < ids.length →
      lookupKV db.capCkpts (CkptId.sub c.eventId j) = none) :
    ((step (allocLoop c change ids 0 db)
        (fun db' => createSnapshot o c.chainId c.vaultAddress k₂ c.blockNumber
          c.blockTimestamp c.transactionHash c.logIndex ty db')).1).idents =
      allocFold c change ids db.idents ∧
    ((step (allocLoop c change ids 0 db)
        (fun db' => createSnapshot o c.chainId c.vaultAddress k₂ c.blockNumber
          c.blockTimestamp c.transactionHash c.logIndex ty db')).1).capCkpts =
      db.capCkpts ++ allocCkptRows c change ids 0 db.idents := by
  have H0 : ∀ j, j < ids.length →
      lookupKV db.capCkpts (CkptId.sub c.eventId (0 + j)) = none := by
    intro j hj
    simpa using H j hj
  obtain ⟨h2, hid, -, -, hck⟩ := allocLoop_spec c change ids 0 db H0
  rcases hL : allocLoop c change ids 0 db with ⟨dbL, errL⟩
  rw [hL] at h2 hid hck
  simp only at h2 hid hck
  subst h2
  simp [hL, step, createSnapshot_idents, createSnapshot_capCkpts, hid, hck]

/-- Variant of `stepAllocSnap_spec` phrased against given values of the
initial identifier table and checkpoint table, convenient when the input
store is a large record expression. -/
theorem stepAllocSnap_spec' (c : EvCtx) (change : Int) (ids : List Nat)
    (o : Option Int) (k₂ : CkptId) (ty : String) (db : DB)
    (tI : List (IKey × IdentRow)) (tC : List (CkptId × CapCkptRow))
    (hI : db.idents = tI) (hC : db.capCkpts = tC)
    (H : ∀ j, j < ids.length →
      lookupKV tC (CkptId.sub c.eventId j) = none) :
    ((step (allocLoop c change ids 0 db)
        (fun db' => createSnapshot o c.chainId c.vaultAddress k₂ c.blockNumber
          c.blockTimestamp c.transactionHash c.logIndex ty db')).1).idents =
      allocFold c change ids tI ∧
    ((step (allocLoop c change ids 0 db)
        (fun db' => createSnapshot o c.chainId c.vaultAddress k₂ c.blockNumber
          c.blockTimestamp c.transactionHash c.logIndex ty db')).1).capCkpts =
      tC ++ allocCkptRows c change ids 0 tI := by
  subst hI
  subst hC
  exact stepAllocSnap_spec c change ids o k₂ ty db H

theorem onAllocate_spec (o : Option Int) (e : AllocEv) (db : DB)
    (hled : lookupKV db.allocateLedger e.ctx.eventId = none)
    (hfresh : ∀ j, j < e.ids.length →
      lookupKV db.capCkpts (CkptId.sub e.ctx.eventId j) = none) :
    ((onAllocate o e db).1).idents =
      allocFold e.ctx e.change e.ids db.idents ∧
    ((onAllocate o e db).1).capCkpts =
      db.capCkpts ++ allocCkptRows e.ctx e.change e.ids 0 db.idents := by
  simp only [onAllocate, insertAllocate, insKV, hled, step_ok]
  exact stepAllocSnap_spec' e.ctx e.change e.ids o _ "Allocate" _
    db.idents db.capCkpts rfl rfl hfresh

theorem onDeallocate_spec (o : Option Int) (e : AllocEv) (db : DB)
    (hled : lookupKV db.deallocateLedger e.ctx.eventId = none)
    (hfresh : ∀ j, j < e.ids.length →
      lookupKV db.capCkpts (CkptId.sub e.ctx.eventId j) = none) :
    ((onDeallocate o e db).1).idents =
      allocFold e.ctx e.change e.ids db.idents ∧
    ((onDeallocate o e db).1).capCkpts =
      db.capCkpts ++ allocCkptRows e.ctx e.change e.ids 0 db.idents := by
  simp only [onDeallocate, insertDeallocate, insKV, hled, step_ok]
  exact stepAllocSnap_spec' e.ctx e.change e.ids o _ "Deallocate" _
    db.idents db.capCkpts rfl rfl hfresh

theorem onForceDeallocate_spec (o : Option Int) (e : ForceDeallocEv) (db : DB)
    (hled : lookupKV db.forceDeallocateLedger e.ctx.eventId = none)
    (hfresh : ∀ j, j < e.ids.length →
      lookupKV db.capCkpts (CkptId.sub e.ctx.eventId j) = none) :
    ((onForceDeallocate o e db).1).idents =
      allocFold e.ctx (-e.assets) e.ids db.idents ∧
    ((onForceDeallocate o e db).1).capCkpts =
      db.capCkpts ++ allocCkptRows e.ctx (-e.assets) e.ids 0 db.idents := by
  simp only [onForceDeallocate, insertForceDeallocate, insKV,
    ensureVaultExists_forceDeallocateLedger, hled, step_ok]
  exact stepAllocSnap_spec' e.ctx (-e.assets) e.ids o _ "ForceDeallocate" _
    db.idents db.capCkpts (by simp [ensureVaultExists_idents])
    (by simp [ensureVaultExists_capCkpts]) hfresh

/-- C6: Allocate and Deallocate iterate the identifier array and apply the
event's single signed delta additively to each listed identifier's
allocation (a new row starts at the delta with zero caps, an existing row
accumulates — `allocUpsertState` is exactly that upsert outcome), leaving
every unlisted identifier untouched; ForceDeallocate applies the delta
`-(assets)` the same way; and the penalty amount never affects any
identifier's allocation, cap, or checkpoint state (two runs differing only
in the penalty produce identical identifier and cap-checkpoint tables). -/
theorem c6_allocation_delta (o : Option Int) :
    (∀ (e : AllocEv) (db : DB), e.ids.Nodup →
        lookupKV db.allocateLedger e.ctx.eventId = none →
        (∀ j, j < e.ids.length →
          lookupKV db.capCkpts (CkptId.sub e.ctx.eventId j) = none) →
        (∀ id ∈ e.ids,
          lookupKV ((onAllocate o e db).1).idents
              ⟨e.ctx.chainId, e.ctx.vaultAddress, id⟩ =
            some (allocUpsertState e.change db.idents
              ⟨e.ctx.chainId, e.ctx.vaultAddress, id⟩)) ∧
        (∀ k : IKey,
          (∀ id ∈ e.ids, k ≠ ⟨e.ctx.chainId, e.ctx.vaultAddress, id⟩) →
          lookupKV ((onAllocate o e db).1).idents k = lookupKV db.idents k)) ∧
    (∀ (e : AllocEv) (db : DB), e.ids.Nodup →
        lookupKV db.deallocateLedger e.ctx.eventId = none →
        (∀ j, j < e.ids.length →
          lookupKV db.capCkpts (CkptId.sub e.ctx.eventId j) = none) →
        (∀ id ∈ e.ids,
          lookupKV ((onDeallocate o e db).1).idents
              ⟨e.ctx.chainId, e.ctx.vaultAddress, id⟩ =
            some (allocUpsertState e.change db.idents
              ⟨e.ctx.chainId, e.ctx.vaultAddress, id⟩)) ∧
        (∀ k : IKey,
          (∀ id ∈ e.ids, k ≠ ⟨e.ctx.chainId, e.ctx.vaultAddress, id⟩) →
          lookupKV ((onDeallocate o e db).1).idents k = lookupKV db.idents k)) ∧
    (∀ (e : ForceDeallocEv) (db : DB), e.ids.Nodup →
        lookupKV db.forceDeallocateLedger e.ctx.eventId = none →
        (∀ j, j < e.ids.length →
          lookupKV db.capCkpts (CkptId.sub e.ctx.eventId j) = none) →
        (∀ id ∈ e.ids,
          lookupKV ((onForceDeallocate o e db).1).idents
              ⟨e.ctx.chainId, e.ctx.vaultAddress, id⟩ =
            some (allocUpsertState (-e.assets) db.idents
              ⟨e.ctx.chainId, e.ctx.vaultAddress, id⟩)) ∧
        (∀ k : IKey,
          (∀ id ∈ e.ids, k ≠ ⟨e.ctx.chainId, e.ctx.vaultAddress, id⟩) →
          lookupKV ((onForceDeallocate o e db).1).idents k =
            lookupKV db.idents k)) ∧
    (∀ (e : ForceDeallocEv) (db : DB) (p₁ p₂ : Int),
        lookupKV db.forceDeallocateLedger e.ctx.eventId = none →
        (∀ j, j < e.ids.length →
          lookupKV db.capCkpts (CkptId.sub e.ctx.eventId j) = none) →
        ((onForceDeallocate o { e with penaltyAssets := p₁ } db).1).idents =
          ((onForceDeallocate o { e with penaltyAssets := p₂ } db).1).idents ∧
        ((onForceDeallocate o { e with penaltyAssets := p₁ } db).1).capCkpts =
          ((onForceDeallocate o { e with penaltyAssets := p₂ } db).1).capCkpts) := by
  refine ⟨?_, ?_, ?_, ?_⟩
  · intro e db hnd hled hfresh
    obtain ⟨hid, -⟩ := onAllocate_spec o e db hled hfresh
    constructor
    · intro id hmem
      rw [hid]
      exact allocFold_mem e.ctx e.change e.ids db.idents id hnd hmem
    · intro k hk
      rw [hid]
      exact allocFold_notmem e.ctx e.change e.ids db.idents k hk
  · intro e db hnd hled hfresh
    obtain ⟨hid, -⟩ := onDeallocate_spec o e db hled hfresh
    constructor
    · intro id hmem
      rw [hid]
      exact allocFold_mem e.ctx e.change e.ids db.idents id hnd hmem
    · intro k hk
      rw [hid]
      exact allocFold_notmem e.ctx e.change e.ids db.idents k hk
  · intro e db hnd hled hfresh
    obtain ⟨hid, -⟩ := onForceDeallocate_spec o e db hled hfresh
    constructor
    · intro id hmem
      rw [hid]
      exact allocFold_mem e.ctx (-e.assets) e.ids db.idents id hnd hmem
    · intro k hk
      rw [hid]
      exact allocFold_notmem e.ctx (-e.assets) e.ids db.idents k hk
  · intro e db p₁ p₂ hled hfresh
    obtain ⟨h1i, h1c⟩ :=
      onForceDeallocate_spec o { e with penaltyAssets := p₁ } db hled hfresh
    obtain ⟨h2i, h2c⟩ :=
      onForceDeallocate_spec o { e with penaltyAssets := p₂ } db hled hfresh
    constructor
    · rw [h1i, h2i]
    · rw [h1c, h2c]

/-- C6 witness: Allocate(ids=[77,88], change=+200) creates both rows at
allocation 200; ForceDeallocate(assets=30, ids=[77]) creates the row at
allocation -30; changing only the penalty (7 vs 11) leaves the identifier
table identical. -/
theorem c6_allocation_delta_witness :
    lookupKV ((onAllocate none ⟨exCtx, 5, 6, 0, 200, [77, 88]⟩ exDB).1).idents
        ⟨1, 100, 77⟩ =
      some { absoluteCap := 0, relativeCap := 0, allocation := 200 } ∧
    lookupKV ((onAllocate none ⟨exCtx, 5, 6, 0, 200, [77, 88]⟩ exDB).1).idents
        ⟨1, 100, 88⟩ =
      some { absoluteCap := 0, relativeCap := 0, allocation := 200 } ∧
    lookupKV ((onForceDeallocate none ⟨exCtx, 5, 6, 30, 9, 7, [77]⟩ exDB).1).idents
        ⟨1, 100, 77⟩ =
      some { absoluteCap := 0, relativeCap := 0, allocation := -30 } ∧
    ((onForceDeallocate none ⟨exCtx, 5, 6, 30, 9, 7, [77]⟩ exDB).1).idents =
      ((onForceDeallocate none ⟨exCtx, 5, 6, 30, 9, 11, [77]⟩ exDB).1).idents := by
  obtain ⟨hA, -, hC, hD⟩ := c6_allocation_delta none
  obtain ⟨hA1, -⟩ := hA ⟨exCtx, 5, 6, 0, 200, [77, 88]⟩ exDB (by decide)
    (by decide) (fun j _ => rfl)
  obtain ⟨hC1, -⟩ := hC ⟨exCtx, 5, 6, 30, 9, 7, [77]⟩ exDB (by decide)
    (by decide) (fun j _ => rfl)
  obtain ⟨hD1, -⟩ := hD ⟨exCtx, 5, 6, 30, 9, 0, [77]⟩ exDB 7 11
    (by decide) (fun j _ => rfl)
  exact ⟨hA1 77 (by decide), hA1 88 (by decide), hC1 77 (by decide), hD1⟩

/-- The identifier state after an absolute-cap upsert. -/
def capUpsertAbsState (newCap : Int) (t : List (IKey × IdentRow)) (k : IKey) :
    IdentRow :=
  match lookupKV t k with
  | some r => { r with absoluteCap := newCap }
  | none => { absoluteCap := newCap, relativeCap := 0, allocation := 0 }

theorem onIncreaseAbsoluteCap_capCkpts (o : Option Int) (e : CapEv) (db : DB)
    (hled : lookupKV db.absCapLedger e.ctx.eventId = none)
    (hck : lookupKV db.capCkpts (CkptId.base e.ctx.eventId) = none) :
    ((onIncreaseAbsoluteCap o e db).1).capCkpts =
      db.capCkpts ++
        [(CkptId.base e.ctx.eventId,
          capRowOf e.ctx e.id (some e.idData)
            (capUpsertAbsState e.newCap db.idents
              ⟨e.ctx.chainId, e.ctx.vaultAddress, e.id⟩))] := by
  simp only [onIncreaseAbsoluteCap, insertAbsCap, insKV, hled, step_ok,
    upsertIdent, handleCapOrAllocationChange, capGetCurrentState,
    lookupKV_upsertKV_self, hck]
  cases h : lookupKV db.idents ⟨e.ctx.chainId, e.ctx.vaultAddress, e.id⟩ <;>
    simp [h, step_ok, createSnapshot_capCkpts, capRowOf, capUpsertAbsState, hck]

/-- C8: the identifier-level checkpoint row inserted for a cap-change
event is keyed by the event's coordinate (`CkptId.base`), and for an
allocation event the row for the `j`-th identifier is keyed by the
coordinate suffixed with the array index (`CkptId.sub`); in both cases the
row records exactly the identifier's projected state after the event's
mutation (the same `s` that the identifier table holds), and processing
never modifies a checkpoint row that already exists (append-only). -/
theorem c8_checkpoint_post_state (o : Option Int) :
    (∀ (e : CapEv) (db : DB),
        lookupKV db.absCapLedger e.ctx.eventId = none →
        lookupKV db.capCkpts (CkptId.base e.ctx.eventId) = none →
        (∃ s : IdentRow,
          lookupKV ((onIncreaseAbsoluteCap o e db).1).idents
              ⟨e.ctx.chainId, e.ctx.vaultAddress, e.id⟩ = some s ∧
          lookupKV ((onIncreaseAbsoluteCap o e db).1).capCkpts
              (CkptId.base e.ctx.eventId) =
            some (capRowOf e.ctx e.id (some e.idData) s)) ∧
        (∀ (k : CkptId) (w : CapCkptRow), lookupKV db.capCkpts k = some w →
          lookupKV ((onIncreaseAbsoluteCap o e db).1).capCkpts k = some w)) ∧
    (∀ (e : AllocEv) (db : DB), e.ids.Nodup →
        lookupKV db.allocateLedger e.ctx.eventId = none →
        (∀ j, j < e.ids.length →
          lookupKV db.capCkpts (CkptId.sub e.ctx.eventId j) = none) →
        (∀ (j : Nat) (hj : j < e.ids.length),
          ∃ s : IdentRow,
            lookupKV ((onAllocate o e db).1).idents
                ⟨e.ctx.chainId, e.ctx.vaultAddress, e.ids.get ⟨j, hj⟩⟩ =
              some s ∧
            lookupKV ((onAllocate o e db).1).capCkpts
                (CkptId.sub e.ctx.eventId j) =
              some (capRowOf e.ctx (e.ids.get ⟨j, hj⟩) none s)) ∧
        (∀ (k : CkptId) (w : CapCkptRow), lookupKV db.capCkpts k = some w →
          lookupKV ((onAllocate o e db).1).capCkpts k = some w)) := by
  constructor
  · intro e db hled hck
    constructor
    · refine ⟨capUpsertAbsState e.newCap db.idents
        ⟨e.ctx.chainId, e.ctx.vaultAddress, e.id⟩, ?_, ?_⟩
      · rw [onIncreaseAbsoluteCap_idents o e db hled, lookupKV_upsertKV_self]
        cases h : lookupKV db.idents ⟨e.ctx.chainId, e.ctx.vaultAddress, e.id⟩ <;>
          simp [capUpsertAbsState, h]
      · rw [onIncreaseAbsoluteCap_capCkpts o e db hled hck,
          lookupKV_appendList, hck]
        simp [lookupKV]
    · intro k w hw
      rw [onIncreaseAbsoluteCap_capCkpts o e db hled hck, lookupKV_appendList,
        hw]
  · intro e db hnd hled hfresh
    obtain ⟨hid, hckpts⟩ := onAllocate_spec o e db hled hfresh
    constructor
    · intro j hj
      refine ⟨allocUpsertState e.change db.idents
        ⟨e.ctx.chainId, e.ctx.vaultAddress, e.ids.get ⟨j, hj⟩⟩, ?_, ?_⟩
      · rw [hid]
        exact allocFold_mem e.ctx e.change e.ids db.idents _ hnd
          (List.get_mem _ _ _)
      · rw [hckpts, lookupKV_appendList, hfresh j hj]
        have hrow := allocCkptRows_lookup e.ctx e.change e.ids 0 db.idents hnd j hj
        simpa using hrow
    · intro k w hw
      rw [hckpts, lookupKV_appendList, hw]

/-- C8 witness: the cap and allocation checkpoints on the fixture store,
with the snapshotted state equal to the freshly projected identifier
state. -/
theorem c8_checkpoint_post_state_witness :
    (∃ s : IdentRow,
      lookupKV ((onIncreaseAbsoluteCap none ⟨exCtx, 5, 77, 9, 1000⟩ exDB).1).idents
          ⟨1, 100, 77⟩ = some s ∧
      lookupKV ((onIncreaseAbsoluteCap none ⟨exCtx, 5, 77, 9, 1000⟩ exDB).1).capCkpts
          (CkptId.base ⟨1, 555, 3⟩) =
        some (capRowOf exCtx 77 (some 9) s)) ∧
    (∃ s : IdentRow,
      lookupKV ((onAllocate none ⟨exCtx, 5, 6, 0, 200, [77]⟩ exDB).1).idents
          ⟨1, 100, 77⟩ = some s ∧
      lookupKV ((onAllocate none ⟨exCtx, 5, 6, 0, 200, [77]⟩ exDB).1).capCkpts
          (CkptId.sub ⟨1, 555, 3⟩ 0) =
        some (capRowOf exCtx 77 none s)) := by
  obtain ⟨hcap, halloc⟩ := c8_checkpoint_post_state none
  constructor
  · exact (hcap ⟨exCtx, 5, 77, 9, 1000⟩ exDB (by decide) (by decide)).1
  · exact ((halloc ⟨exCtx, 5, 6, 0, 200, [77]⟩ exDB (by decide) (by decide)
      (fun j _ => rfl)).1) 0 (by decide)

/-! ## Claim C9: snapshot share prices -/

/-- C9: the historical snapshot records a raw share price equal to
totalAssets * 10^18 divided (truncating integer division, as JavaScript
bigint division) by totalSupply when totalSupply is positive and 10^18 (a
1:1 price) when totalSupply is zero; when the external valuation read
fails (`o = none`) the canonical price falls back to the raw price, when
it succeeds the canonical price is the returned value, and in every case
the snapshot row is inserted and the event is processed without error. -/
theorem c9_snapshot_share_price (o : Option Int) (chainId vaultAddress : Nat)
    (k : CkptId) (bn ts : Int) (th li : Nat) (ty : String) (db : DB)
    (v : VaultRow)
    (hv : lookupKV db.vaults ⟨chainId, vaultAddress⟩ = some v)
    (hsnap : lookupKV db.snapshots k = none) :
    (createSnapshot o chainId vaultAddress k bn ts th li ty db).2 = none ∧
    (lookupKV ((createSnapshot o chainId vaultAddress k bn ts th li ty
        db).1).snapshots k).map SnapshotRow.rawSharePrice =
      some (if v.totalSupply > 0 then Int.tdiv (v.totalAssets * WAD) v.totalSupply
        else WAD) ∧
    (o = none →
      (lookupKV ((createSnapshot o chainId vaultAddress k bn ts th li ty
          db).1).snapshots k).map SnapshotRow.sharePrice =
      (lookupKV ((createSnapshot o chainId vaultAddress k bn ts th li ty
          db).1).snapshots k).map SnapshotRow.rawSharePrice) ∧
    (∀ p : Int, o = some p →
      (lookupKV ((createSnapshot o chainId vaultAddress k bn ts th li ty
          db).1).snapshots k).map SnapshotRow.sharePrice = some p) := by
  simp only [createSnapshot, hv, insKV, hsnap]
  refine ⟨trivial, ?_, ?_, ?_⟩
  · rw [lookupKV_append, hsnap]
    simp
  · intro h
    subst h
    rw [lookupKV_append, hsnap]
    simp
  · intro p h
    subst h
    rw [lookupKV_append, hsnap]
    simp

/-- C9 witness: the snapshot of the fixture vault (totalAssets 50,
totalSupply 10) with a failed external read records raw price 5 * 10^18,
canonical price equal to the raw price, and no error. -/
theorem c9_snapshot_share_price_witness :
    (createSnapshot none 1 100 (CkptId.snap ⟨1, 555, 3⟩) 10 1000 555 3
      "AccrueInterest" exDB).2 = none ∧
    (lookupKV ((createSnapshot none 1 100 (CkptId.snap ⟨1, 555, 3⟩) 10 1000
        555 3 "AccrueInterest" exDB).1).snapshots
      (CkptId.snap ⟨1, 555, 3⟩)).map SnapshotRow.rawSharePrice =
      some 5000000000000000000 ∧
    (lookupKV ((createSnapshot none 1 100 (CkptId.snap ⟨1, 555, 3⟩) 10 1000
        555 3 "AccrueInterest" exDB).1).snapshots
      (CkptId.snap ⟨1, 555, 3⟩)).map SnapshotRow.sharePrice =
    (lookupKV ((createSnapshot none 1 100 (CkptId.snap ⟨1, 555, 3⟩) 10 1000
        555 3 "AccrueInterest" exDB).1).snapshots
      (CkptId.snap ⟨1, 555, 3⟩)).map SnapshotRow.rawSharePrice := by
  obtain ⟨h1, h2, h3, -⟩ := c9_snapshot_share_price none 1 100
    (CkptId.snap ⟨1, 555, 3⟩) 10 1000 555 3 "AccrueInterest" exDB exVault
    (by decide) (by decide)
  refine ⟨h1, ?_, h3 rfl⟩
  rw [h2]
  decide

end MorphoIndexer
